import Mathlib

/-!
Verification of the team-manage redemption saga and member-lifecycle services.

This file shallowly embeds the data model (`app/models.py`) and the two core
services (`app/services/redeem_flow.py`, `app/services/member_lifecycle.py`)
as pure Lean functions over explicit database states, and proves the claimed
properties about them.

Modelling conventions:
* `datetime` values are integers (seconds since the epoch); `timedelta(days=n)`
  is `n * 86400`; Python's `date()` extraction is floor division by 86400 and
  `timedelta.days` is floor division of the difference by 86400.
* Database sessions, transactions and row locks are not modelled: each service
  call is a pure function from a database state to a database state, which is
  the sequential semantics the row-locked transactions provide.
* External collaborators that live outside the two embedded modules
  (`RedemptionService.validate_code`, `WarrantyService.validate_warranty_reuse`,
  `TeamService.ensure_access_token`, `TeamService._handle_api_error`,
  `ChatGPTService.send_invite`, and the wall clock `get_now`) are oracle
  parameters of the saga, so every theorem quantifies over their behaviour.
* `meta_json = json.dumps({"legacy": ...})` is modelled by the boolean it
  serialises; the reminder `dedupe_key` string `email|date|reason` is modelled
  by the triple it concatenates.
-/

namespace TeamManage

/-- Model of `datetime`: seconds since the epoch. -/
abbrev Time := Int

/-- `timedelta(days=d)` in seconds. -/
def timedelta_days (d : Int) : Int := d * 86400

/-- `Team` row (`app/models.py`); only the columns the embedded services read
or write are kept (credential columns are handled by oracle parameters). -/
structure Team where
  id : Nat
  account_id : String
  team_name : String
  expires_at : Option Time
  current_members : Nat
  max_members : Nat
  status : String
  deriving DecidableEq, Repr

/-- `RedemptionCode` row (`app/models.py`). -/
structure RedemptionCode where
  code : String
  status : String
  has_warranty : Bool
  warranty_days : Option Int
  warranty_expires_at : Option Time
  used_by_email : Option String
  used_team_id : Option Nat
  used_at : Option Time
  deriving DecidableEq, Repr

/-- `RedemptionRecord` row (`app/models.py`). -/
structure RedemptionRecord where
  email : String
  code : String
  team_id : Nat
  account_id : String
  redeemed_at : Time
  is_warranty_redemption : Bool
  deriving DecidableEq, Repr

/-- `MemberLifecycle` row (`app/models.py`). -/
structure MemberLifecycle where
  id : Nat
  email : String
  first_joined_at : Time
  policy_type : String
  policy_expires_at : Option Time
  has_migration_downtime : Bool
  is_legacy_seeded : Bool
  effective_from : Time
  current_team_id : Option Nat
  status : String
  deriving DecidableEq, Repr

/-- `MemberLifecycleEvent` row (`app/models.py`); `meta_json` is modelled by
the `legacy` boolean it serialises. -/
structure MemberLifecycleEvent where
  lifecycle_id : Nat
  event_type : String
  source_type : String
  code_or_manual_tag : Option String
  has_warranty : Bool
  warranty_expires_at : Option Time
  from_team_id : Option Nat
  to_team_id : Option Nat
  event_at : Time
  meta_legacy : Bool
  deriving DecidableEq, Repr

/-- The `dedupe_key = f"{email}|{expiry-date}|{reason}"` string, modelled by the
triple it concatenates. -/
structure DedupeKey where
  email : String
  expiry_day : Int
  reason : String
  deriving DecidableEq, Repr

/-- `MemberReminderQueue` row (`app/models.py`). -/
structure MemberReminderQueue where
  lifecycle_id : Nat
  email : String
  policy_type : String
  target_expires_at : Time
  days_left : Int
  reason : String
  status : String
  dedupe_key : DedupeKey
  deriving DecidableEq, Repr

/-- The whole persisted state: one list per table, plus the autoincrement
counter the ORM uses when flushing a new `MemberLifecycle` row. -/
structure DB where
  codes : List RedemptionCode
  teams : List Team
  records : List RedemptionRecord
  lifecycles : List MemberLifecycle
  lifecycle_events : List MemberLifecycleEvent
  reminders : List MemberReminderQueue
  next_lifecycle_id : Nat
  deriving DecidableEq, Repr

/-! ## Member lifecycle service (`app/services/member_lifecycle.py`) -/

/-- `POLICY_EFFECTIVE_FROM = datetime(2026, 3, 1)` as an epoch second count. -/
def POLICY_EFFECTIVE_FROM : Time := 1772323200

/-- `email.strip().lower()`: strip surrounding whitespace, then lowercase,
expressed over the string's character list (faithful for the ASCII range the
repository handles). -/
def normalize_email (s : String) : String :=
  String.mk ((((s.data.dropWhile Char.isWhitespace).reverse.dropWhile
    Char.isWhitespace).reverse).map Char.toLower)

/-- Argument record of `upsert_lifecycle_event`. -/
structure UpsertArgs where
  email : String
  team_id : Nat
  source_type : String
  event_type : String
  code_or_manual_tag : Option String
  has_warranty : Bool
  warranty_expires_at : Option Time
  is_legacy_seeded : Bool
  legacy_remaining_warranty_days : Option Int
  event_time : Option Time
  deriving Repr

/-- The body of `upsert_lifecycle_event` shared by the found and the freshly
created lifecycle row (lines 63-96): sticky migration-downtime flag, policy
recomputation by fixed precedence, and the appended audit event. -/
def apply_lifecycle_update (L0 : MemberLifecycle) (a : UpsertArgs) (now : Time) :
    MemberLifecycle × MemberLifecycleEvent :=
  let prev := L0.current_team_id
  -- `if prev_team_id and prev_team_id != team_id` (Python truthiness: 0 is falsy)
  let moved : Bool := match prev with
    | some p => !(p == 0) && !(p == a.team_id)
    | none => false
  let L1 := { L0 with
    has_migration_downtime := if moved then true else L0.has_migration_downtime,
    current_team_id := some a.team_id }
  let L2 :=
    match a.is_legacy_seeded, a.legacy_remaining_warranty_days with
    | true, some d =>
        { L1 with policy_type := "warranty",
                  policy_expires_at := some (now + timedelta_days d),
                  is_legacy_seeded := true }
    | _, _ =>
        if a.has_warranty then
          { L1 with policy_type := "warranty", policy_expires_at := a.warranty_expires_at }
        else if a.source_type = "redeem" then
          { L1 with policy_type := "redeem_no_warranty_28d",
                    policy_expires_at := some (L1.first_joined_at + timedelta_days 28) }
        else
          { L1 with policy_type := "manual_28d",
                    policy_expires_at := some (L1.first_joined_at + timedelta_days 28) }
  let ev : MemberLifecycleEvent :=
    { lifecycle_id := L1.id
      event_type := a.event_type
      source_type := a.source_type
      code_or_manual_tag := a.code_or_manual_tag
      has_warranty := a.has_warranty
      warranty_expires_at := a.warranty_expires_at
      from_team_id := prev
      to_team_id := some a.team_id
      event_at := now
      meta_legacy := a.is_legacy_seeded }
  (L2, ev)

/-- The freshly created lifecycle row of lines 49-61 (first sight of an
email): default `manual_28d` policy, 28-day expiry from first join. -/
def fresh_lifecycle (db : DB) (a : UpsertArgs) (now : Time) : MemberLifecycle :=
  { id := db.next_lifecycle_id
    email := normalize_email a.email
    first_joined_at := now
    policy_type := "manual_28d"
    policy_expires_at := some (now + timedelta_days 28)
    has_migration_downtime := false
    is_legacy_seeded := a.is_legacy_seeded
    effective_from := POLICY_EFFECTIVE_FROM
    current_team_id := some a.team_id
    status := "active" }

/-- `MemberLifecycleService.upsert_lifecycle_event` (lines 27-97): look the
lifecycle row up by normalized email, create it with the defaults of lines
49-61 when missing, then apply the shared update body.  `call_time` models the
`get_now()` fallback for a missing `event_time`. -/
def upsert_lifecycle_event (db : DB) (a : UpsertArgs) (call_time : Time) : DB × Nat :=
  let now := a.event_time.getD call_time
  let ne := normalize_email a.email
  match db.lifecycles.find? (fun L => L.email == ne) with
  | some L0 =>
      let r := apply_lifecycle_update L0 a now
      ({ db with
          lifecycles := db.lifecycles.map (fun L => if L.email == ne then r.1 else L),
          lifecycle_events := db.lifecycle_events ++ [r.2] }, L0.id)
  | none =>
      let L0 : MemberLifecycle := fresh_lifecycle db a now
      let r := apply_lifecycle_update L0 a now
      ({ db with
          lifecycles := db.lifecycles ++ [r.1],
          lifecycle_events := db.lifecycle_events ++ [r.2],
          next_lifecycle_id := db.next_lifecycle_id + 1 }, L0.id)

/-- The reason dictionary lookup with default `"policy_due"` (lines 120-124). -/
def reason_for (policy_type : String) : String :=
  if policy_type = "warranty" then "warranty_due"
  else if policy_type = "manual_28d" then "manual_28d_due"
  else if policy_type = "redeem_no_warranty_28d" then "redeem_no_warranty_due"
  else "policy_due"

/-- The `select` filter of `collect_due_reminders` (lines 103-108). -/
def due_filter (now : Time) (due_days : Int) (L : MemberLifecycle) : Bool :=
  L.status == "active" &&
  decide (POLICY_EFFECTIVE_FROM ≤ L.effective_from) &&
  (match L.policy_expires_at with
   | none => false
   | some e => decide (e ≤ now + timedelta_days due_days))

/-- The dedupe key a lifecycle row yields (line 127); the filter guarantees
`policy_expires_at` is non-null, so `getD 0` is never the arbitrary default on
inputs the scan actually processes. -/
def key_of (L : MemberLifecycle) : DedupeKey :=
  { email := L.email
    expiry_day := (L.policy_expires_at.getD 0).fdiv 86400
    reason := reason_for L.policy_type }

/-- Whether the queue already holds a row with the given dedupe key
(the existence query of lines 129-131; pending adds of the same run are
visible through the session's autoflush). -/
def has_key (k : DedupeKey) (queue : List MemberReminderQueue) : Bool :=
  queue.any (fun r => decide (r.dedupe_key = k))

/-- The scan loop of `collect_due_reminders` (lines 115-145) over the already
filtered lifecycles, threading the queue and both counters. -/
def collect_go (now : Time) :
    List MemberLifecycle → List MemberReminderQueue → Nat → Nat →
    Nat × Nat × List MemberReminderQueue
  | [], queue, created, skipped => (created, skipped, queue)
  | L :: rest, queue, created, skipped =>
    if L.policy_type == "redeem_no_warranty_28d" && L.has_migration_downtime then
      collect_go now rest queue created (skipped + 1)
    else
      let e := L.policy_expires_at.getD 0
      let reason := reason_for L.policy_type
      let days_left := max 0 ((e - now).fdiv 86400)
      let k : DedupeKey := { email := L.email, expiry_day := e.fdiv 86400, reason := reason }
      if has_key k queue then
        collect_go now rest queue created (skipped + 1)
      else
        collect_go now rest
          (queue ++ [{ lifecycle_id := L.id
                       email := L.email
                       policy_type := L.policy_type
                       target_expires_at := e
                       days_left := days_left
                       reason := reason
                       status := "pending"
                       dedupe_key := k }])
          (created + 1) skipped

/-- Result of `collect_due_reminders`. -/
structure CollectResult where
  created : Nat
  skipped : Nat
  db : DB
  deriving Repr

/-- `MemberLifecycleService.collect_due_reminders` (lines 99-148). -/
def collect_due_reminders (db : DB) (now : Time) (due_days : Int) : CollectResult :=
  let r := collect_go now (db.lifecycles.filter (due_filter now due_days)) db.reminders 0 0
  { created := r.1, skipped := r.2.1, db := { db with reminders := r.2.2 } }

/-! ## Redemption saga (`app/services/redeem_flow.py`) -/

/-- Outcome of `RedemptionService.validate_code` (external collaborator,
`{success, valid, reason, error}`). -/
inductive ValidateOut where
  | err (msg : String)
  | invalid (reason : String)
  | valid
  deriving DecidableEq, Repr

/-- Outcome of `ChatGPTService.send_invite`: success, a failure result, or an
exception escaping the call (handled by the saga's `except` clause). -/
inductive InviteOutcome where
  | success
  | failure (msg : String)
  | exceptional
  deriving DecidableEq, Repr

/-- The fields of the dict `redeem_and_join_team` returns that the claims
mention (`success`, `error`, `team_info.team_id`). -/
structure RedeemResult where
  success : Bool
  error : Option String
  team_id : Option Nat
  deriving DecidableEq, Repr

/-- The external collaborators and the wall clock, per attempt index:
`validate` is `RedemptionService.validate_code`, `warranty_reuse` is
`WarrantyService.validate_warranty_reuse`'s `can_reuse` verdict, `token_ok`
is whether `TeamService.ensure_access_token` yields a token for the team,
`invite` is `ChatGPTService.send_invite`, `classify` is
`TeamService._handle_api_error`'s effect on the team row, and
`t_reserve`/`t_finalize` are the `get_now()` readings of the reservation
transaction and of the finalize transaction. -/
structure SagaOracles where
  validate : Nat → ValidateOut
  warranty_reuse : Nat → Bool
  token_ok : Nat → Nat → Bool
  invite : Nat → Nat → InviteOutcome
  classify : Nat → Team → Team
  t_reserve : Nat → Time
  t_finalize : Nat → Time

/-- `max_retries = 3` (line 183). -/
def max_retries : Nat := 3

/-- `warranty_days = redemption_code.warranty_days or 30` (line 275):
Python's `or` replaces both `None` and `0` by 30. -/
def warranty_days_or_30 : Option Int → Int
  | none => 30
  | some d => if d = 0 then 30 else d

/-- Ascending `expires_at` comparison with SQLite's NULLS-FIRST order
(line 141). -/
def expires_lt : Option Time → Option Time → Bool
  | none, none => false
  | none, some _ => true
  | some _, none => false
  | some x, some y => decide (x < y)

/-- `RedeemFlowService.select_team_auto` (lines 105-170): exclude the teams
the email already joined, keep active teams with a free seat, and return the
id of the team with the earliest expiry (`none` when no team qualifies). -/
def select_team_auto (db : DB) (email : String) : Option Nat :=
  let exclude := (db.records.filter (fun r => r.email == email)).map (fun r => r.team_id)
  let candidates := db.teams.filter (fun t =>
    t.status == "active" && decide (t.current_members < t.max_members) &&
    !(exclude.contains t.id))
  let best := candidates.foldl (fun acc t =>
    match acc with
    | none => some t
    | some b => if expires_lt t.expires_at b.expires_at then some t else some b) none
  best.map (fun t => t.id)

/-- The seat-count mutation of the reservation (lines 285-287). -/
def occupy_seat (t : Team) : Team :=
  { t with
    current_members := t.current_members + 1,
    status := if t.max_members ≤ t.current_members + 1 then "full" else t.status }

/-- The seat-count mutation of the compensation (lines 459-463). -/
def release_seat (t : Team) : Team :=
  let cm := if 0 < t.current_members then t.current_members - 1 else t.current_members
  { t with
    current_members := cm,
    status := if t.status == "full" && decide (cm < t.max_members) then "active" else t.status }

/-- One step of scanning for the record with the maximal `redeemed_at`. -/
def latest_step (acc : Option RedemptionRecord) (r : RedemptionRecord) :
    Option RedemptionRecord :=
  match acc with
  | none => some r
  | some b => if b.redeemed_at < r.redeemed_at then some r else some b

/-- `order_by(RedemptionRecord.redeemed_at.desc()).first()` (lines 429-433):
the record with the maximal `redeemed_at` (first such on ties, which SQL
leaves unspecified). -/
def latest_record (rs : List RedemptionRecord) : Option RedemptionRecord :=
  rs.foldl latest_step none

/-- The code-row restoration of `_rollback_redemption` (lines 425-453): a
warranty code falls back to the most recent surviving allocation record (or a
pristine `unused` row when none exists), a plain code is always fully reset
to `unused`. -/
def rollback_code_fix (rc : RedemptionCode) (recs : List RedemptionRecord) :
    RedemptionCode :=
  if rc.has_warranty then
    match latest_record recs with
    | some r =>
        { rc with status := "warranty_active",
                  used_by_email := some r.email,
                  used_team_id := some r.team_id,
                  used_at := some r.redeemed_at }
    | none =>
        { rc with status := "unused", warranty_expires_at := none,
                  used_by_email := none, used_team_id := none, used_at := none }
  else
    { rc with status := "unused",
              used_by_email := none, used_team_id := none, used_at := none }

/-- `RedeemFlowService._rollback_redemption` (lines 408-466): restore the code
row (for a warranty code, from its allocation-record history), then decrement
the team's member count and revert a `full` status when a seat freed up. -/
def rollback_redemption (db : DB) (code : String) (team_id : Nat) : DB :=
  let db1 : DB :=
    match db.codes.find? (fun c => c.code == code) with
    | none => db
    | some rc =>
      let rc' := rollback_code_fix rc (db.records.filter (fun r => r.code == code))
      { db with codes := db.codes.map (fun c => if c.code == code then rc' else c) }
  { db1 with teams := db1.teams.map (fun t => if t.id == team_id then release_seat t else t) }

/-- The optimistic code-row mutation of the reservation (lines 271-282):
mark warranty codes `warranty_active` (computing the warranty expiry on first
use only), plain codes `used`, and stamp the holder metadata. -/
def reserve_mutation (rc : RedemptionCode) (email : String) (tid : Nat) (now : Time) :
    RedemptionCode :=
  { rc with
    status := if rc.has_warranty then "warranty_active" else "used",
    warranty_expires_at :=
      if rc.has_warranty ∧ rc.status == "unused" then
        some (now + timedelta_days (warranty_days_or_30 rc.warranty_days))
      else rc.warranty_expires_at,
    used_by_email := some email,
    used_team_id := some tid,
    used_at := some now }

/-- Result of the reservation transaction (phase 1, lines 200-296): an early
return, a `continue` to the next attempt (the team vanished / filled up /
left `active` while auto-selected), or a committed reservation carrying the
snapshot the code keeps for phase 2 (`final_team_account_id`,
`final_is_warranty`). -/
inductive Phase1Out where
  | ret (r : RedeemResult)
  | cont
  | reserved (team_id_final : Nat) (account_id : String) (is_warranty : Bool) (db' : DB)
  deriving DecidableEq, Repr

/-- Phase 1 of `redeem_and_join_team` (lines 200-296): validate, re-check and
lock the code, pick the target team, lock and check it, run the warranty
reuse rules, then optimistically mark the code and take the seat. -/
def reserve_phase (db : DB) (O : SagaOracles) (email code : String)
    (attempt : Nat) (target : Option Nat) : Phase1Out :=
  match O.validate attempt with
  | .err m => .ret { success := false, error := some m, team_id := none }
  | .invalid r => .ret { success := false, error := some r, team_id := none }
  | .valid =>
  match db.codes.find? (fun c => c.code == code) with
  | none => .ret { success := false, error := some "兑换码记录丢失", team_id := none }
  | some rc =>
  let allowed := if rc.has_warranty then ["unused", "warranty_active", "used"]
                 else ["unused", "warranty_active"]
  if ¬ allowed.contains rc.status then
    .ret { success := false, error := some "兑换码已被使用", team_id := none }
  else
  let team_id_final? := match target with
    | none => select_team_auto db email
    | some t => some t
  match team_id_final? with
  | none =>
      let msg := if (db.records.filter (fun r => r.email == email)).isEmpty
                 then "没有可用的 Team" else "您已加入所有可用 Team"
      .ret { success := false, error := some msg, team_id := none }
  | some tid =>
  match db.teams.find? (fun t => t.id == tid) with
  | none =>
      if target == none ∧ attempt + 1 < max_retries then .cont
      else .ret { success := false, error := some ("Team " ++ toString tid ++ " 不存在"), team_id := none }
  | some team =>
  if team.max_members ≤ team.current_members then
    (if target == none ∧ attempt + 1 < max_retries then .cont
     else .ret { success := false, error := some "Team 已满，请选择其他 Team", team_id := none })
  else if team.status ≠ "active" then
    (if target == none ∧ attempt + 1 < max_retries then .cont
     else .ret { success := false, error := some ("Team 状态异常: " ++ team.status), team_id := none })
  else
  let is_warranty_code := rc.has_warranty
  let is_first_use := rc.status == "unused"
  if ¬ is_first_use ∧ is_warranty_code = true ∧ O.warranty_reuse attempt = false then
    .ret { success := false, error := some "兑换码质保验证未通过", team_id := none }
  else if ¬ is_first_use ∧ is_warranty_code = false then
    .ret { success := false, error := some "兑换码已被占用", team_id := none }
  else
  let db' := { db with
    codes := db.codes.map (fun c =>
      if c.code == code then reserve_mutation rc email tid (O.t_reserve attempt) else c),
    teams := db.teams.map (fun t => if t.id == tid then occupy_seat t else t) }
  .reserved tid team.account_id is_warranty_code db'

/-- The outcome of one loop body: an early return, or a `continue` carrying
the `current_target_team_id` the next attempt starts from. -/
inductive BodyOut where
  | ret (r : RedeemResult)
  | cont (next_target : Option Nat)
  deriving DecidableEq, Repr

/-- One iteration of the retry loop of `redeem_and_join_team` (lines 198-406):
phase 1 (reservation), phase 2 (token + remote invite, no lock held), phase 3
(finalize on success — allocation record and lifecycle event in one
transaction — or compensate, classify the error and decide between retry and
surfacing the failure).  The `.exceptional` invite outcome follows the
`except` clause of lines 397-406. -/
def redeem_body (db : DB) (O : SagaOracles) (email code : String)
    (attempt : Nat) (target : Option Nat) : BodyOut × DB :=
  match reserve_phase db O email code attempt target with
  | .ret r => (.ret r, db)
  | .cont => (.cont target, db)
  | .reserved tid account_id is_warranty db1 =>
    match db1.teams.find? (fun t => t.id == tid) with
    | none =>
        let db2 := rollback_redemption db1 code tid
        if attempt + 1 < max_retries then (.cont none, db2)
        else (.ret { success := false, error := some "所选 Team 已失效", team_id := none }, db2)
    | some _ =>
      if O.token_ok attempt tid = false then
        let db2 := rollback_redemption db1 code tid
        if attempt + 1 < max_retries then (.cont none, db2)
        else (.ret { success := false, error := some "Team 账号 Token 已失效且无法刷新", team_id := none }, db2)
      else
      match O.invite attempt tid with
      | .success =>
          let w_exp := match db1.codes.find? (fun c => c.code == code) with
            | some rc => if is_warranty then rc.warranty_expires_at else none
            | none => none
          let t := O.t_finalize attempt
          let record : RedemptionRecord :=
            { email := email, code := code, team_id := tid, account_id := account_id,
              redeemed_at := t, is_warranty_redemption := is_warranty }
          let db2 := { db1 with records := db1.records ++ [record] }
          let db3 := (upsert_lifecycle_event db2
            { email := email, team_id := tid, source_type := "redeem",
              event_type := "redeem_join", code_or_manual_tag := some code,
              has_warranty := is_warranty, warranty_expires_at := w_exp,
              is_legacy_seeded := false, legacy_remaining_warranty_days := none,
              event_time := some t } t).1
          (.ret { success := true, error := none, team_id := some tid }, db3)
      | .failure emsg =>
          let db2 := rollback_redemption db1 code tid
          let db3 := { db2 with
            teams := db2.teams.map (fun t => if t.id == tid then O.classify attempt t else t) }
          let emsg2 := match db3.teams.find? (fun t => t.id == tid) with
            | some t2 =>
                if t2.status == "banned" then "Team 账号被封禁"
                else if t2.status == "full" then "Team 席位已满"
                else if t2.status == "error" then "Team 账号连续出错，已标记异常"
                else emsg
            | none => emsg
          if attempt + 1 < max_retries then (.cont none, db3)
          else (.ret { success := false, error := some ("加入失败: " ++ emsg2), team_id := none }, db3)
      | .exceptional =>
          let db2 := rollback_redemption db1 code tid
          if attempt + 1 < max_retries then (.cont target, db2)
          else (.ret { success := false, error := some "兑换系统异常", team_id := none }, db2)

/-- The retry loop (`for attempt in range(max_retries)`), by fuel on the
remaining attempts; the fuel-0 case is unreachable because every final-attempt
branch returns. -/
def redeem_go (O : SagaOracles) (email code : String) :
    Nat → Nat → Option Nat → DB → RedeemResult × DB
  | 0, _, _, db => ({ success := false, error := some "未知错误", team_id := none }, db)
  | fuel + 1, attempt, target, db =>
    match redeem_body db O email code attempt target with
    | (.ret r, db') => (r, db')
    | (.cont t', db') => redeem_go O email code fuel (attempt + 1) t' db'

/-- `RedeemFlowService.redeem_and_join_team` (lines 172-406). -/
def redeem_and_join_team (O : SagaOracles) (email code : String)
    (team_id : Option Nat) (db : DB) : RedeemResult × DB :=
  redeem_go O email code max_retries 0 team_id db

/-! ## Projections and invariants -/

/-- The `(code, has_warranty, status)` triple of the code row a lookup by code
string returns. -/
def code_key3 (db : DB) (code : String) : Option (String × Bool × String) :=
  (db.codes.find? (fun c => c.code == code)).map (fun c => (c.code, c.has_warranty, c.status))

/-- The status of the code row a lookup by code string returns. -/
def code_status (db : DB) (code : String) : Option String :=
  (db.codes.find? (fun c => c.code == code)).map (fun c => c.status)

/-- The member count of the team row a lookup by id returns. -/
def team_members (db : DB) (tid : Nat) : Option Nat :=
  (db.teams.find? (fun t => t.id == tid)).map (fun t => t.current_members)

/-- Saga-consistency of a code row with the allocation-record history: a
warranty code is `unused` exactly when no allocation record exists for it and
`warranty_active` exactly when one does.  Every state the saga itself can
produce satisfies this (fresh codes start `unused` with no records, records
are appended only on success, which leaves the code `warranty_active`). -/
def code_records_consistent (db : DB) (code : String) : Bool :=
  match code_key3 db code with
  | none => true
  | some (_, hw, st) =>
    !hw ||
    ((st == "unused" && (db.records.filter (fun r => r.code == code)).isEmpty) ||
     (st == "warranty_active" && !(db.records.filter (fun r => r.code == code)).isEmpty))

/-! ## List helper lemmas -/

theorem find?_replace {α : Type} (p : α → Bool) (y : α) (hy : p y = true) :
    ∀ l : List α, (l.map (fun x => if p x then y else x)).find? p =
      (l.find? p).map (fun _ => y)
  | [] => rfl
  | a :: l => by
    by_cases hpa : p a = true
    · rw [List.map_cons, if_pos hpa, List.find?_cons_of_pos _ hy, List.find?_cons_of_pos _ hpa]
      rfl
    · rw [List.map_cons, if_neg hpa, List.find?_cons_of_neg _ hpa,
        List.find?_cons_of_neg _ hpa]
      exact find?_replace p y hy l

theorem find?_map_pres {α : Type} (p : α → Bool) (g : α → α) (hg : ∀ x, p (g x) = p x) :
    ∀ l : List α, (l.map g).find? p = (l.find? p).map g
  | [] => rfl
  | a :: l => by
    by_cases hpa : p a = true
    · rw [List.map_cons, List.find?_cons_of_pos _ ((hg a).trans hpa),
        List.find?_cons_of_pos _ hpa]
      rfl
    · have hga : ¬ p (g a) = true := by rw [hg a]; exact hpa
      rw [List.map_cons, List.find?_cons_of_neg _ hga, List.find?_cons_of_neg _ hpa]
      exact find?_map_pres p g hg l

theorem latest_step_some (b : RedemptionRecord) :
    ∀ rs : List RedemptionRecord, ∃ m, rs.foldl latest_step (some b) = some m := by
  intro rs
  induction rs generalizing b with
  | nil => exact ⟨b, rfl⟩
  | cons r rs ih =>
    simp only [List.foldl_cons, latest_step]
    by_cases h : b.redeemed_at < r.redeemed_at
    · simpa [h] using ih r
    · simpa [h] using ih b

theorem latest_record_of_ne_nil (rs : List RedemptionRecord) (h : rs ≠ []) :
    ∃ m, latest_record rs = some m := by
  match rs, h with
  | r :: rs, _ =>
    simp only [latest_record, List.foldl_cons, latest_step]
    exact latest_step_some r rs

theorem find?_members_map (l : List Team) (g : Team → Team)
    (hid : ∀ t, (g t).id = t.id) (hcm : ∀ t, (g t).current_members = t.current_members)
    (tid : Nat) :
    ((l.map g).find? (fun t => t.id == tid)).map Team.current_members =
      (l.find? (fun t => t.id == tid)).map Team.current_members := by
  rw [find?_map_pres _ g (fun t => by simp [hid t])]
  cases l.find? (fun t => t.id == tid) <;> simp [hcm]

theorem rollback_code_fix_code (rc : RedemptionCode) (recs : List RedemptionRecord) :
    (rollback_code_fix rc recs).code = rc.code := by
  unfold rollback_code_fix
  split
  · split <;> rfl
  · rfl

theorem rollback_code_fix_warranty (rc : RedemptionCode) (recs : List RedemptionRecord) :
    (rollback_code_fix rc recs).has_warranty = rc.has_warranty := by
  unfold rollback_code_fix
  split
  · split <;> rfl
  · rfl

theorem rollback_records (db : DB) (code : String) (tid : Nat) :
    (rollback_redemption db code tid).records = db.records := by
  unfold rollback_redemption
  cases h : db.codes.find? (fun c => c.code == code) <;> simp [h]

theorem rollback_lifecycles (db : DB) (code : String) (tid : Nat) :
    (rollback_redemption db code tid).lifecycles = db.lifecycles := by
  unfold rollback_redemption
  cases h : db.codes.find? (fun c => c.code == code) <;> simp [h]

theorem rollback_teams (db : DB) (code : String) (tid : Nat) :
    (rollback_redemption db code tid).teams =
      db.teams.map (fun t => if t.id == tid then release_seat t else t) := by
  unfold rollback_redemption
  cases h : db.codes.find? (fun c => c.code == code) <;> simp [h]

theorem rollback_codes (db : DB) (code : String) (tid : Nat) :
    (rollback_redemption db code tid).codes =
      match db.codes.find? (fun c => c.code == code) with
      | none => db.codes
      | some rc => db.codes.map (fun c =>
          if c.code == code then
            rollback_code_fix rc (db.records.filter (fun r => r.code == code))
          else c) := by
  unfold rollback_redemption
  cases h : db.codes.find? (fun c => c.code == code) <;> simp [h]

theorem rollback_codes_of_found (db : DB) (code : String) (tid : Nat) (rc : RedemptionCode)
    (h : db.codes.find? (fun c => c.code == code) = some rc) :
    (rollback_redemption db code tid).codes = db.codes.map (fun c =>
      if c.code == code then
        rollback_code_fix rc (db.records.filter (fun r => r.code == code))
      else c) := by
  unfold rollback_redemption
  simp [h]

theorem rollback_code_key3_of (db1 : DB) (code : String) (tid : Nat) (rm : RedemptionCode)
    (hfind1 : db1.codes.find? (fun c => c.code == code) = some rm) :
    code_key3 (rollback_redemption db1 code tid) code =
      some (rm.code, rm.has_warranty,
        (rollback_code_fix rm (db1.records.filter (fun r => r.code == code))).status) := by
  have hfixc : ((rollback_code_fix rm
      (db1.records.filter (fun r => r.code == code))).code == code) = true := by
    rw [rollback_code_fix_code]
    exact @List.find?_some _ (fun c => c.code == code) rm db1.codes hfind1
  rw [code_key3, rollback_codes_of_found _ _ _ _ hfind1]
  rw [find?_replace (fun c => c.code == code)
    (rollback_code_fix rm (db1.records.filter (fun r => r.code == code))) hfixc db1.codes,
    hfind1]
  simp [rollback_code_fix_code, rollback_code_fix_warranty]

/-- Core compensation-closure step at the code-row level: the rollback's
restoration applied to a freshly reserved code row yields the pre-reservation
status, as long as the pre-state was saga-consistent. -/
theorem fix_after_reserve_status
    (rc : RedemptionCode) (email : String) (tid : Nat) (now : Time)
    (recs : List RedemptionRecord)
    (hcons : rc.has_warranty = true →
      (rc.status = "unused" ∧ recs = []) ∨
      (rc.status = "warranty_active" ∧ recs ≠ []))
    (hfirst : rc.has_warranty = false → rc.status = "unused") :
    (rollback_code_fix (reserve_mutation rc email tid now) recs).status = rc.status := by
  cases hhw : rc.has_warranty with
  | false =>
      have hst := hfirst hhw
      simp [rollback_code_fix, reserve_mutation, hhw, hst]
  | true =>
      rcases hcons hhw with ⟨hst, hemp⟩ | ⟨hst, hne⟩
      · simp [rollback_code_fix, reserve_mutation, hhw, hst, hemp, latest_record]
      · obtain ⟨m, hm2⟩ := latest_record_of_ne_nil _ hne
        simp [rollback_code_fix, reserve_mutation, hhw, hst, hm2]

theorem occupy_seat_id (t : Team) : (occupy_seat t).id = t.id := rfl

theorem release_seat_id (t : Team) : (release_seat t).id = t.id := rfl

theorem release_occupy_members (tid : Nat) (t : Team) :
    ((fun s => if s.id == tid then release_seat s else s)
      ((fun s => if s.id == tid then occupy_seat s else s) t)).current_members
      = t.current_members := by
  by_cases h : (t.id == tid) = true
  · simp [h, occupy_seat, release_seat]
  · simp [h]

theorem release_occupy_id (tid : Nat) (t : Team) :
    ((fun s => if s.id == tid then release_seat s else s)
      ((fun s => if s.id == tid then occupy_seat s else s) t)).id = t.id := by
  by_cases h : (t.id == tid) = true
  · simp [h, occupy_seat, release_seat]
  · simp [h]

/-- One `(reserve, fail-invite)` pair of the saga: run the reservation phase,
and if it committed, run the compensation `_rollback_redemption` (the remote
invite's failure itself touches no ledger row).  A reservation attempt that
did not commit leaves the state as it was. -/
structure PairInput where
  O : SagaOracles
  email : String
  target : Option Nat
  attempt : Nat

/-- Apply one reserve/compensate pair for `code` to the database. -/
def saga_pair (code : String) (db : DB) (i : PairInput) : DB :=
  match reserve_phase db i.O i.email code i.attempt i.target with
  | .reserved tid _ _ db1 => rollback_redemption db1 code tid
  | _ => db

/-- A single reserve/compensate pair restores the code row's
`(code, has_warranty, status)` triple, the record table, and every team's
member count, provided the code row is saga-consistent with its records. -/
theorem saga_pair_restores (code : String) (db : DB) (i : PairInput)
    (h : code_records_consistent db code = true) :
    code_key3 (saga_pair code db i) code = code_key3 db code ∧
    (saga_pair code db i).records = db.records ∧
    (∀ tid, team_members (saga_pair code db i) tid = team_members db tid) := by
  cases hres : reserve_phase db i.O i.email code i.attempt i.target with
  | ret r =>
    have hsp : saga_pair code db i = db := by unfold saga_pair; rw [hres]
    rw [hsp]
    exact ⟨rfl, rfl, fun _ => rfl⟩
  | cont =>
    have hsp : saga_pair code db i = db := by unfold saga_pair; rw [hres]
    rw [hsp]
    exact ⟨rfl, rfl, fun _ => rfl⟩
  | reserved tid acc isW db1 =>
    have hsp : saga_pair code db i = rollback_redemption db1 code tid := by
      unfold saga_pair; rw [hres]
    rw [hsp]
    simp only [reserve_phase] at hres
    cases hval : i.O.validate i.attempt with
    | err m => simp only [hval] at hres; exact Phase1Out.noConfusion hres
    | invalid r => simp only [hval] at hres; exact Phase1Out.noConfusion hres
    | valid =>
    simp only [hval] at hres
    cases hfind : db.codes.find? (fun c => c.code == code) with
    | none => simp only [hfind] at hres; exact Phase1Out.noConfusion hres
    | some rc =>
    simp only [hfind] at hres
    by_cases hallow : ¬ ((if rc.has_warranty then ["unused", "warranty_active", "used"]
        else ["unused", "warranty_active"]).contains rc.status = true)
    · rw [if_pos hallow] at hres; exact Phase1Out.noConfusion hres
    rw [if_neg hallow] at hres
    cases hsel : (match i.target with
        | none => select_team_auto db i.email
        | some t => some t) with
    | none => simp only [hsel] at hres; exact Phase1Out.noConfusion hres
    | some tid0 =>
    simp only [hsel] at hres
    cases hteam : db.teams.find? (fun t => t.id == tid0) with
    | none =>
        simp only [hteam] at hres
        split at hres <;> exact Phase1Out.noConfusion hres
    | some team =>
    simp only [hteam] at hres
    by_cases hfull : team.max_members ≤ team.current_members
    · rw [if_pos hfull] at hres; split at hres <;> exact Phase1Out.noConfusion hres
    rw [if_neg hfull] at hres
    by_cases hstat : team.status ≠ "active"
    · rw [if_pos hstat] at hres; split at hres <;> exact Phase1Out.noConfusion hres
    rw [if_neg hstat] at hres
    by_cases hg1 : ¬ (rc.status == "unused") = true ∧ rc.has_warranty = true ∧
        i.O.warranty_reuse i.attempt = false
    · rw [if_pos hg1] at hres; exact Phase1Out.noConfusion hres
    rw [if_neg hg1] at hres
    by_cases hg2 : ¬ (rc.status == "unused") = true ∧ rc.has_warranty = false
    · rw [if_pos hg2] at hres; exact Phase1Out.noConfusion hres
    rw [if_neg hg2] at hres
    injection hres with e1 e2 e3 e4
    subst e1
    subst e4
    -- facts derived from the surviving guards
    have hfirst : rc.has_warranty = false → rc.status = "unused" := by
      intro hw
      by_contra hne
      exact hg2 ⟨fun hb => hne (by simpa using hb), hw⟩
    have hconsP : rc.has_warranty = true →
        (rc.status = "unused" ∧ db.records.filter (fun r => r.code == code) = []) ∨
        (rc.status = "warranty_active" ∧ db.records.filter (fun r => r.code == code) ≠ []) := by
      intro hw
      have h' := h
      simp only [code_records_consistent, code_key3, hfind, Option.map_some', hw,
        Bool.not_true, Bool.false_or] at h'
      simpa using h'
    have hpm : ((reserve_mutation rc i.email tid0 (i.O.t_reserve i.attempt)).code == code) = true :=
      @List.find?_some _ (fun c => c.code == code) rc db.codes hfind
    have hfind1 : (db.codes.map (fun c =>
        if c.code == code then reserve_mutation rc i.email tid0 (i.O.t_reserve i.attempt)
        else c)).find? (fun c => c.code == code)
        = some (reserve_mutation rc i.email tid0 (i.O.t_reserve i.attempt)) := by
      rw [find?_replace (fun c => c.code == code)
        (reserve_mutation rc i.email tid0 (i.O.t_reserve i.attempt)) hpm db.codes, hfind]
      rfl
    refine ⟨?_, ?_, ?_⟩
    · rw [rollback_code_key3_of _ _ _ _ hfind1]
      rw [code_key3, hfind]
      have hst := fix_after_reserve_status rc i.email tid0 (i.O.t_reserve i.attempt)
        (db.records.filter (fun r => r.code == code)) hconsP hfirst
      simp only [Option.map_some']
      exact congrArg some (by rw [hst]; rfl)
    · rw [rollback_records]
    · intro tid'
      rw [team_members, team_members, rollback_teams]
      have hteq : ({ db with
          codes := db.codes.map (fun c =>
            if c.code == code then reserve_mutation rc i.email tid0 (i.O.t_reserve i.attempt)
            else c),
          teams := db.teams.map (fun t => if t.id == tid0 then occupy_seat t else t) } : DB).teams
          = db.teams.map (fun t => if t.id == tid0 then occupy_seat t else t) := rfl
      rw [hteq, List.map_map]
      exact find?_members_map db.teams _
        (fun t => release_occupy_id tid0 t) (fun t => release_occupy_members tid0 t) tid'

theorem saga_pair_consistent (code : String) (db : DB) (i : PairInput)
    (h : code_records_consistent db code = true) :
    code_records_consistent (saga_pair code db i) code = true := by
  obtain ⟨hk, hr, _⟩ := saga_pair_restores code db i h
  unfold code_records_consistent at h ⊢
  rw [hk, hr]
  exact h

theorem code_status_map_key3 (db : DB) (code : String) :
    code_status db code = (code_key3 db code).map (fun k => k.2.2) := by
  unfold code_status code_key3
  cases db.codes.find? (fun c => c.code == code) <;> rfl

/-- C2.  For every code and team, and for any sequence of (reserve,
fail-invite) pairs executed by the saga, after the compensation
(`_rollback_redemption`) of the last pair completes, the redemption code's
status and every team's `current_members` count equal the values they had
before the first reservation began (hence, by induction, the values
immediately before each reservation), provided the code row is
saga-consistent with its allocation records — which holds for every state the
saga itself can reach. -/
theorem compensation_closure_sequence (code : String) (db : DB) (seq : List PairInput)
    (h : code_records_consistent db code = true) :
    code_status (seq.foldl (saga_pair code) db) code = code_status db code ∧
    ∀ tid, team_members (seq.foldl (saga_pair code) db) tid = team_members db tid := by
  induction seq generalizing db with
  | nil => exact ⟨rfl, fun _ => rfl⟩
  | cons p rest ih =>
    obtain ⟨hk, _, hm⟩ := saga_pair_restores code db p h
    obtain ⟨ihs, ihm⟩ := ih (saga_pair code db p) (saga_pair_consistent code db p h)
    refine ⟨?_, ?_⟩
    · rw [List.foldl_cons, ihs, code_status_map_key3, code_status_map_key3, hk]
    · intro tid
      rw [List.foldl_cons, ihm tid, hm tid]

/-- Concrete witness state for C2: a fresh warranty code, one reservation
attempt whose invite fails. -/
def w2Team : Team :=
  { id := 1, account_id := "acc1", team_name := "t1", expires_at := some 100,
    current_members := 2, max_members := 6, status := "active" }

def w2Code : RedemptionCode :=
  { code := "C", status := "unused", has_warranty := true, warranty_days := some 30,
    warranty_expires_at := none, used_by_email := none, used_team_id := none,
    used_at := none }

def w2Db : DB :=
  { codes := [w2Code], teams := [w2Team], records := [], lifecycles := [],
    lifecycle_events := [], reminders := [], next_lifecycle_id := 1 }

def w2Oracles : SagaOracles :=
  { validate := fun _ => .valid,
    warranty_reuse := fun _ => true,
    token_ok := fun _ _ => true,
    invite := fun _ _ => .failure "conflict",
    classify := fun _ t => t,
    t_reserve := fun _ => 1000,
    t_finalize := fun _ => 2000 }

def w2Pair : PairInput :=
  { O := w2Oracles, email := "a@x", target := some 1, attempt := 0 }

theorem compensation_closure_witness :
    code_records_consistent w2Db "C" = true ∧
    (code_status ([w2Pair, w2Pair].foldl (saga_pair "C") w2Db) "C" = code_status w2Db "C" ∧
      ∀ tid, team_members ([w2Pair, w2Pair].foldl (saga_pair "C") w2Db) tid
        = team_members w2Db tid) :=
  ⟨by decide, compensation_closure_sequence "C" w2Db [w2Pair, w2Pair] (by decide)⟩


/-- Inversion of the reservation phase: when it reports `.reserved`, the code
and team rows were found and passed their guards, and `db'` is exactly the
optimistic mutation of the two rows. -/
theorem reserve_phase_reserved_inv
    (db : DB) (O : SagaOracles) (email code : String) (attempt : Nat) (target : Option Nat)
    (tid : Nat) (acc : String) (isW : Bool) (db1 : DB)
    (hres : reserve_phase db O email code attempt target = .reserved tid acc isW db1) :
    ∃ rc team,
      db.codes.find? (fun c => c.code == code) = some rc ∧
      db.teams.find? (fun t => t.id == tid) = some team ∧
      team.current_members < team.max_members ∧
      team.status = "active" ∧
      acc = team.account_id ∧
      isW = rc.has_warranty ∧
      (rc.has_warranty = false → rc.status = "unused") ∧
      (rc.status ≠ "unused" → rc.has_warranty = true ∧ O.warranty_reuse attempt = true) ∧
      db1 = { db with
        codes := db.codes.map (fun c =>
          if c.code == code then reserve_mutation rc email tid (O.t_reserve attempt) else c),
        teams := db.teams.map (fun t => if t.id == tid then occupy_seat t else t) } := by
  simp only [reserve_phase] at hres
  cases hval : O.validate attempt with
  | err m => simp only [hval] at hres; exact Phase1Out.noConfusion hres
  | invalid r => simp only [hval] at hres; exact Phase1Out.noConfusion hres
  | valid =>
  simp only [hval] at hres
  cases hfind : db.codes.find? (fun c => c.code == code) with
  | none => simp only [hfind] at hres; exact Phase1Out.noConfusion hres
  | some rc =>
  simp only [hfind] at hres
  by_cases hallow : ¬ ((if rc.has_warranty then ["unused", "warranty_active", "used"]
      else ["unused", "warranty_active"]).contains rc.status = true)
  · rw [if_pos hallow] at hres; exact Phase1Out.noConfusion hres
  rw [if_neg hallow] at hres
  cases hsel : (match target with
      | none => select_team_auto db email
      | some t => some t) with
  | none => simp only [hsel] at hres; exact Phase1Out.noConfusion hres
  | some tid0 =>
  simp only [hsel] at hres
  cases hteam : db.teams.find? (fun t => t.id == tid0) with
  | none =>
      simp only [hteam] at hres
      split at hres <;> exact Phase1Out.noConfusion hres
  | some team =>
  simp only [hteam] at hres
  by_cases hfull : team.max_members ≤ team.current_members
  · rw [if_pos hfull] at hres; split at hres <;> exact Phase1Out.noConfusion hres
  rw [if_neg hfull] at hres
  by_cases hstat : team.status ≠ "active"
  · rw [if_pos hstat] at hres; split at hres <;> exact Phase1Out.noConfusion hres
  rw [if_neg hstat] at hres
  by_cases hg1 : ¬ (rc.status == "unused") = true ∧ rc.has_warranty = true ∧
      O.warranty_reuse attempt = false
  · rw [if_pos hg1] at hres; exact Phase1Out.noConfusion hres
  rw [if_neg hg1] at hres
  by_cases hg2 : ¬ (rc.status == "unused") = true ∧ rc.has_warranty = false
  · rw [if_pos hg2] at hres; exact Phase1Out.noConfusion hres
  rw [if_neg hg2] at hres
  injection hres with e1 e2 e3 e4
  subst e1
  refine ⟨rc, team, rfl, hteam, Nat.lt_of_not_le hfull, not_ne_iff.mp hstat,
    e2.symm, e3.symm, ?_, ?_, e4.symm⟩
  · intro hw
    by_contra hne
    exact hg2 ⟨fun hb => hne (by simpa using hb), hw⟩
  · intro hne
    have hnb : ¬ (rc.status == "unused") = true := fun hb => hne (by simpa using hb)
    have hw : rc.has_warranty = true := by
      by_contra hwf
      exact hg2 ⟨hnb, Bool.not_eq_true rc.has_warranty ▸ hwf⟩
    refine ⟨hw, ?_⟩
    by_contra hrf
    exact hg1 ⟨hnb, hw, Bool.not_eq_true (O.warranty_reuse attempt) ▸ hrf⟩

/-- "The reservation it targets no longer exists": the code row already
matches its allocation-record history (the state `_rollback_redemption` itself
restores, and the state of any settled code — fresh, or warranty with its
latest record as holder). -/
def code_row_settled (db : DB) (code : String) : Bool :=
  match db.codes.find? (fun c => c.code == code) with
  | none => true
  | some rc =>
    if rc.has_warranty then
      match latest_record (db.records.filter (fun r => r.code == code)) with
      | some r =>
          decide (rc.status = "warranty_active") && decide (rc.used_by_email = some r.email) &&
          decide (rc.used_team_id = some r.team_id) && decide (rc.used_at = some r.redeemed_at)
      | none =>
          decide (rc.status = "unused") && decide (rc.warranty_expires_at = none) &&
          decide (rc.used_by_email = none) && decide (rc.used_team_id = none) &&
          decide (rc.used_at = none)
    else
      decide (rc.status = "unused") && decide (rc.used_by_email = none) &&
      decide (rc.used_team_id = none) && decide (rc.used_at = none)

theorem settled_fix_eq (db : DB) (code : String) (rc : RedemptionCode)
    (hfind : db.codes.find? (fun c => c.code == code) = some rc)
    (h : code_row_settled db code = true) :
    rollback_code_fix rc (db.records.filter (fun r => r.code == code)) = rc := by
  unfold code_row_settled at h
  simp only [hfind] at h
  cases hw : rc.has_warranty with
  | false =>
      rw [if_neg (by simp [hw] : ¬ (rc.has_warranty = true))] at h
      simp only [Bool.and_eq_true, decide_eq_true_eq] at h
      obtain ⟨⟨⟨h1, h2⟩, h3⟩, h4⟩ := h
      cases rc with
      | mk c st hwv wd we ub ut ua => simp_all [rollback_code_fix]
  | true =>
      rw [if_pos hw] at h
      cases hlr : latest_record (db.records.filter (fun r => r.code == code)) with
      | some r =>
          rw [hlr] at h
          simp only [Bool.and_eq_true, decide_eq_true_eq] at h
          obtain ⟨⟨⟨h1, h2⟩, h3⟩, h4⟩ := h
          cases rc with
          | mk c st hwv wd we ub ut ua => simp_all [rollback_code_fix]
      | none =>
          rw [hlr] at h
          simp only [Bool.and_eq_true, decide_eq_true_eq] at h
          obtain ⟨⟨⟨⟨h1, h2⟩, h3⟩, h4⟩, h5⟩ := h
          cases rc with
          | mk c st hwv wd we ub ut ua => simp_all [rollback_code_fix]

/-- C3 counterexample state: a settled, never-reserved plain code and a team
with one member; no reservation is in flight. -/
def w3Db : DB :=
  { codes := [{ code := "C", status := "unused", has_warranty := false,
                warranty_days := some 30, warranty_expires_at := none,
                used_by_email := none, used_team_id := none, used_at := none }],
    teams := [{ id := 1, account_id := "acc1", team_name := "t1", expires_at := some 100,
                current_members := 1, max_members := 6, status := "active" }],
    records := [], lifecycles := [], lifecycle_events := [], reminders := [],
    next_lifecycle_id := 1 }

/-- C3 counterexample: with no reservation in flight (the code row is
settled), `_rollback_redemption` still mutates the team row — it decrements
`current_members` from 1 to 0 — so it is not a no-op. -/
theorem rollback_orphan_not_noop :
    code_row_settled w3Db "C" = true ∧
    (rollback_redemption w3Db "C" 1).teams ≠ w3Db.teams := by decide

/-- C3 (amended).  Invoking `_rollback_redemption` when the reservation it
targets no longer exists (the code row is settled against its record history)
leaves the code row unchanged, but it is not a no-op on the team row: it
unconditionally decrements the team's `current_members` whenever that count
is positive (and reverts a `full` status to `active` when a seat frees up). -/
theorem rollback_orphan_effect (db : DB) (code : String) (tid : Nat)
    (h : code_row_settled db code = true) :
    (rollback_redemption db code tid).codes.find? (fun c => c.code == code)
      = db.codes.find? (fun c => c.code == code) ∧
    (∀ t, db.teams.find? (fun s => s.id == tid) = some t →
      team_members (rollback_redemption db code tid) tid
        = some (if 0 < t.current_members then t.current_members - 1 else t.current_members)) := by
  constructor
  · cases hfind : db.codes.find? (fun c => c.code == code) with
    | none =>
        simp only [rollback_codes, hfind]
    | some rc =>
        have hfix := settled_fix_eq db code rc hfind h
        simp only [rollback_codes, hfind]
        have hpc : ((rollback_code_fix rc
            (db.records.filter (fun r => r.code == code))).code == code) = true := by
          rw [rollback_code_fix_code]
          exact @List.find?_some _ (fun c => c.code == code) rc db.codes hfind
        rw [find?_replace (fun c => c.code == code) _ hpc db.codes, hfind, hfix]
        rfl
  · intro t hteam
    have hq : ∀ s : Team, ((if s.id == tid then release_seat s else s).id == tid)
        = (s.id == tid) := by
      intro s
      by_cases hs : (s.id == tid) = true <;> simp [hs, release_seat]
    rw [team_members, rollback_teams,
      find?_map_pres (fun s => s.id == tid) _ hq db.teams, hteam]
    have htid : (t.id == tid) = true :=
      @List.find?_some _ (fun s => s.id == tid) t db.teams hteam
    simp only [Option.map_some', if_pos htid]
    rfl

/-- The statuses the `full ⇔ at-capacity` biconditional names. -/
def full_statuses : List String := ["full", "banned", "error"]

/-- The claimed team invariant: `current_members ≤ max_members` and
`current_members = max_members ⇔ status ∈ {full, banned, error}`. -/
def team_inv (t : Team) : Bool :=
  decide (t.current_members ≤ t.max_members) &&
  ((t.current_members == t.max_members) == full_statuses.contains t.status)

/-- C4 counterexample: a banned team at capacity satisfies the invariant, but
the saga's own rollback decrement (`release_seat`, lines 459-463) breaks the
biconditional: the count drops below capacity while the status stays
`banned`. -/
theorem release_seat_breaks_inv :
    team_inv { id := 9, account_id := "a", team_name := "b", expires_at := none,
               current_members := 1, max_members := 1, status := "banned" } = true ∧
    team_inv (release_seat
      { id := 9, account_id := "a", team_name := "b", expires_at := none,
        current_members := 1, max_members := 1, status := "banned" }) = false := by decide

theorem release_seat_max (t : Team) : (release_seat t).max_members = t.max_members := rfl

theorem team_inv_iff (t : Team) :
    team_inv t = true ↔
      (t.current_members ≤ t.max_members ∧
       (t.current_members = t.max_members ↔ full_statuses.contains t.status = true)) := by
  simp only [team_inv, Bool.and_eq_true, decide_eq_true_eq]
  constructor
  · rintro ⟨h1, h2⟩
    refine ⟨h1, ?_, ?_⟩
    · intro he
      have hb : (t.current_members == t.max_members) = true := by simpa using he
      rw [hb] at h2
      simpa using h2
    · intro hc
      rw [hc] at h2
      simpa using h2
  · rintro ⟨h1, h2⟩
    refine ⟨h1, ?_⟩
    cases hc : full_statuses.contains t.status with
    | false =>
        have hne : t.current_members ≠ t.max_members := fun he =>
          Bool.noConfusion (hc ▸ h2.mp he)
        have hb : (t.current_members == t.max_members) = false := by
          simpa using hne
        simp [hb]
    | true =>
        have he : t.current_members = t.max_members := h2.mpr hc
        simp [he]

theorem contains_status_false (st : String)
    (h1 : st ≠ "full") (h2 : st ≠ "banned") (h3 : st ≠ "error") :
    full_statuses.contains st = false := by
  cases hc : full_statuses.contains st with
  | false => rfl
  | true =>
      exfalso
      have hmem : st ∈ full_statuses := List.mem_of_elem_eq_true hc
      simp only [full_statuses, List.mem_cons, List.not_mem_nil, or_false] at hmem
      rcases hmem with h | h | h
      exacts [h1 h, h2 h, h3 h]

/-- C4 (amended).  The reservation's increment (`occupy_seat`, applied only
under the in-transaction guards `current_members < max_members` and
`status = "active"`, as the third conjunct shows) preserves both halves of
the invariant; the rollback's decrement (`release_seat`) always preserves
`current_members ≤ max_members`, and preserves the biconditional whenever the
team's status is not `banned`/`error` — a banned or errored team at capacity
is decremented without a status change, breaking the biconditional. -/
theorem saga_capacity_invariants :
    (∀ t : Team, team_inv t = true → t.current_members < t.max_members →
      t.status = "active" → team_inv (occupy_seat t) = true) ∧
    (∀ t : Team, team_inv t = true →
      (release_seat t).current_members ≤ t.max_members ∧
      (t.status ≠ "banned" → t.status ≠ "error" → team_inv (release_seat t) = true)) ∧
    (∀ (db : DB) (O : SagaOracles) (email code : String) (attempt : Nat)
        (target : Option Nat) (tid : Nat) (acc : String) (isW : Bool) (db1 : DB),
      reserve_phase db O email code attempt target = .reserved tid acc isW db1 →
      ∃ team, db.teams.find? (fun t => t.id == tid) = some team ∧
        team.current_members < team.max_members ∧ team.status = "active" ∧
        db1.teams = db.teams.map (fun t => if t.id == tid then occupy_seat t else t)) := by
  refine ⟨?_, ?_, ?_⟩
  · intro t hinv hlt hact
    obtain ⟨hle, hiff⟩ := (team_inv_iff t).mp hinv
    rw [team_inv_iff]
    simp only [occupy_seat]
    by_cases hfull : t.max_members ≤ t.current_members + 1
    · rw [if_pos hfull]
      have hmx : t.current_members + 1 = t.max_members :=
        Nat.le_antisymm (Nat.succ_le_of_lt hlt) hfull
      exact ⟨by omega, fun _ => by decide, fun _ => hmx⟩
    · rw [if_neg hfull]
      refine ⟨by omega, fun he => absurd he (by omega), fun hc => ?_⟩
      rw [hact] at hc
      exact absurd hc (by decide)
  · intro t hinv
    obtain ⟨hle, hiff⟩ := (team_inv_iff t).mp hinv
    constructor
    · show (if 0 < t.current_members then t.current_members - 1 else t.current_members)
        ≤ t.max_members
      split <;> omega
    · intro hnb hne
      rw [team_inv_iff]
      by_cases hfullst : t.status = "full"
      · have hcont : full_statuses.contains t.status = true := by rw [hfullst]; decide
        have hcm : t.current_members = t.max_members := hiff.mpr hcont
        by_cases h0 : 0 < t.current_members
        · have hlt' : t.current_members - 1 < t.max_members := by omega
          have hsb : (t.status == "full") = true := by simp [hfullst]
          have hnewst : (release_seat t).status = "active" := by
            simp only [release_seat, if_pos h0]
            rw [hsb]
            simp [hlt']
          have hnewcm : (release_seat t).current_members = t.current_members - 1 := by
            simp [release_seat, if_pos h0]
          rw [hnewst, hnewcm, release_seat_max]
          exact ⟨by omega, fun he => absurd he (by omega), fun hc => absurd hc (by decide)⟩
        · have h00 : t.current_members = 0 := by omega
          have hmax0 : t.max_members = 0 := by omega
          have hnewcm : (release_seat t).current_members = 0 := by
            simp [release_seat, h0, h00]
          have hnewst : (release_seat t).status = t.status := by
            simp [release_seat, h0, h00, hmax0]
          rw [hnewst, hnewcm, release_seat_max]
          exact ⟨by omega, fun _ => hcont, fun _ => by omega⟩
      · have hcont : full_statuses.contains t.status = false :=
          contains_status_false t.status hfullst hnb hne
        have hcmne : t.current_members ≠ t.max_members := fun he =>
          Bool.noConfusion (hcont ▸ hiff.mp he)
        have hsb : (t.status == "full") = false := by
          cases hb : (t.status == "full") with
          | false => rfl
          | true => exact absurd (by simpa using hb) hfullst
        have hnewst : (release_seat t).status = t.status := by
          simp [release_seat, hsb]
        have hnewcm : (release_seat t).current_members
            = if 0 < t.current_members then t.current_members - 1 else t.current_members := rfl
        rw [hnewst, hnewcm, release_seat_max]
        have hlt2 : t.current_members < t.max_members := Nat.lt_of_le_of_ne hle hcmne
        refine ⟨by split <;> omega, fun he => ?_, fun hc => ?_⟩
        · exfalso
          revert he
          split <;> omega
        · rw [hcont] at hc
          exact Bool.noConfusion hc
  · intro db O email code attempt target tid acc isW db1 hres
    obtain ⟨rc, team, _, hteam, hlt, hact, _, _, _, _, hdb1⟩ :=
      reserve_phase_reserved_inv db O email code attempt target tid acc isW db1 hres
    exact ⟨team, hteam, hlt, hact, by rw [hdb1]⟩

theorem rollback_orphan_effect_witness :
    (rollback_redemption w3Db "C" 1).codes.find? (fun c => c.code == "C")
      = w3Db.codes.find? (fun c => c.code == "C") ∧
    team_members (rollback_redemption w3Db "C" 1) 1 = some 0 :=
  ⟨(rollback_orphan_effect w3Db "C" 1 (by decide)).1,
   (rollback_orphan_effect w3Db "C" 1 (by decide)).2
     { id := 1, account_id := "acc1", team_name := "t1", expires_at := some 100,
       current_members := 1, max_members := 6, status := "active" } (by decide)⟩

/-- The database state `reserve_phase` commits on `w2Db` (used by witnesses). -/
def w2AfterReserve : DB :=
  { codes := [{ code := "C", status := "warranty_active", has_warranty := true,
                warranty_days := some 30, warranty_expires_at := some 2593000,
                used_by_email := some "a@x", used_team_id := some 1, used_at := some 1000 }],
    teams := [{ id := 1, account_id := "acc1", team_name := "t1", expires_at := some 100,
                current_members := 3, max_members := 6, status := "active" }],
    records := [], lifecycles := [], lifecycle_events := [], reminders := [],
    next_lifecycle_id := 1 }

def w4t : Team :=
  { id := 2, account_id := "a", team_name := "b", expires_at := none,
    current_members := 1, max_members := 2, status := "active" }

theorem saga_capacity_invariants_witness :
    (team_inv (occupy_seat w4t) = true ∧
     (release_seat w4t).current_members ≤ w4t.max_members ∧
     team_inv (release_seat w4t) = true) ∧
    (∃ team, w2Db.teams.find? (fun t => t.id == 1) = some team ∧
      team.current_members < team.max_members ∧ team.status = "active" ∧
      w2AfterReserve.teams = w2Db.teams.map (fun t => if t.id == 1 then occupy_seat t else t)) :=
  ⟨⟨saga_capacity_invariants.1 w4t (by decide) (by decide) (by decide),
    (saga_capacity_invariants.2.1 w4t (by decide)).1,
    (saga_capacity_invariants.2.1 w4t (by decide)).2 (by decide) (by decide)⟩,
   saga_capacity_invariants.2.2 w2Db w2Oracles "a@x" "C" 0 (some 1) 1 "acc1" true
     w2AfterReserve (by decide)⟩

/-- C1 counterexample scenario: a plain unused code, team 1 (pinned by the
caller) whose invite fails, team 2 available with an earlier expiry and a
working invite. -/
def w1Db : DB :=
  { codes := [{ code := "C", status := "unused", has_warranty := false,
                warranty_days := some 30, warranty_expires_at := none,
                used_by_email := none, used_team_id := none, used_at := none }],
    teams := [{ id := 1, account_id := "acc1", team_name := "t1", expires_at := some 100,
                current_members := 0, max_members := 6, status := "active" },
              { id := 2, account_id := "acc2", team_name := "t2", expires_at := some 50,
                current_members := 0, max_members := 6, status := "active" }],
    records := [], lifecycles := [], lifecycle_events := [], reminders := [],
    next_lifecycle_id := 1 }

def w1O : SagaOracles :=
  { validate := fun _ => .valid,
    warranty_reuse := fun _ => true,
    token_ok := fun _ _ => true,
    invite := fun _ tid => if tid == 1 then .failure "conflict" else .success,
    classify := fun _ t => t,
    t_reserve := fun a => 1000 + a,
    t_finalize := fun a => 2000 + a }

/-- C1 counterexample: the caller explicitly pins team 1 and team 1's remote
invite fails on the first attempt, yet `redeem_and_join_team` does not
surface the failure — it clears the pinned selection, reselects team 2 on the
retry, and returns success there.  This refutes the claim that a pinned
selection suppresses reselection on remote failure (lines 389-395 clear
`current_target_team_id` whenever attempts remain, without checking whether
the team was pinned). -/
theorem pinned_selection_reselected_counterexample :
    (redeem_and_join_team w1O "a@x" "C" (some 1) w1Db).1
      = { success := true, error := none, team_id := some 2 } := by decide

/-- C1 (amended).  After a failed remote invite, whenever attempts remain the
saga always clears the target selection and retries with a freshly chosen
team — whether the team was pinned by the caller or auto-selected — and the
failure is surfaced only on the final attempt. -/
theorem invite_failure_always_reselects
    (db : DB) (O : SagaOracles) (email code : String) (attempt : Nat) (target : Option Nat)
    (tid : Nat) (acc : String) (isW : Bool) (db1 : DB) (emsg : String)
    (hres : reserve_phase db O email code attempt target = .reserved tid acc isW db1)
    (htok : O.token_ok attempt tid = true)
    (hinv : O.invite attempt tid = .failure emsg) :
    (attempt + 1 < max_retries →
      ∃ db2, redeem_body db O email code attempt target = (.cont none, db2)) ∧
    (¬ attempt + 1 < max_retries →
      ∃ msg db2, redeem_body db O email code attempt target
        = (.ret { success := false, error := some msg, team_id := none }, db2)) := by
  obtain ⟨rc, team, hfind, hteam, hlt, hact, hacc, hisw, _, _, hdb1⟩ :=
    reserve_phase_reserved_inv db O email code attempt target tid acc isW db1 hres
  have hq : ∀ s : Team, ((if s.id == tid then occupy_seat s else s).id == tid)
      = (s.id == tid) := by
    intro s
    by_cases hs : (s.id == tid) = true <;> simp [hs, occupy_seat]
  have hfind2 : db1.teams.find? (fun t => t.id == tid) = some (occupy_seat team) := by
    rw [hdb1]
    show (db.teams.map (fun t => if t.id == tid then occupy_seat t else t)).find?
      (fun t => t.id == tid) = _
    rw [find?_map_pres (fun s => s.id == tid) _ hq db.teams, hteam]
    have htidb : (team.id == tid) = true :=
      @List.find?_some _ (fun s => s.id == tid) team db.teams hteam
    simp only [Option.map_some']
    rw [if_pos htidb]
  constructor
  · intro hatt
    simp only [redeem_body, hres, hfind2, htok, hinv, reduceIte]
    simp only [if_pos hatt]
    exact ⟨_, rfl⟩
  · intro hatt
    simp only [redeem_body, hres, hfind2, htok, hinv, reduceIte]
    simp only [if_neg hatt]
    exact ⟨_, _, rfl⟩

/-- The database state after the pinned reservation of the C1 scenario. -/
def w1AfterReserve : DB :=
  { codes := [{ code := "C", status := "used", has_warranty := false,
                warranty_days := some 30, warranty_expires_at := none,
                used_by_email := some "a@x", used_team_id := some 1, used_at := some 1000 }],
    teams := [{ id := 1, account_id := "acc1", team_name := "t1", expires_at := some 100,
                current_members := 1, max_members := 6, status := "active" },
              { id := 2, account_id := "acc2", team_name := "t2", expires_at := some 50,
                current_members := 0, max_members := 6, status := "active" }],
    records := [], lifecycles := [], lifecycle_events := [], reminders := [],
    next_lifecycle_id := 1 }

theorem invite_failure_always_reselects_witness :
    ∃ db2, redeem_body w1Db w1O "a@x" "C" 0 (some 1) = (.cont none, db2) :=
  (invite_failure_always_reselects w1Db w1O "a@x" "C" 0 (some 1) 1 "acc1" false
    w1AfterReserve "conflict" (by decide) (by decide) (by decide)).1 (by decide)

theorem rollback_events (db : DB) (code : String) (tid : Nat) :
    (rollback_redemption db code tid).lifecycle_events = db.lifecycle_events := by
  unfold rollback_redemption
  cases h : db.codes.find? (fun c => c.code == code) <;> simp [h]

theorem upsert_records (db : DB) (a : UpsertArgs) (ct : Time) :
    (upsert_lifecycle_event db a ct).1.records = db.records := by
  unfold upsert_lifecycle_event
  cases h : db.lifecycles.find? (fun L => L.email == normalize_email a.email) <;> simp [h]

theorem upsert_codes (db : DB) (a : UpsertArgs) (ct : Time) :
    (upsert_lifecycle_event db a ct).1.codes = db.codes := by
  unfold upsert_lifecycle_event
  cases h : db.lifecycles.find? (fun L => L.email == normalize_email a.email) <;> simp [h]

theorem upsert_events_length (db : DB) (a : UpsertArgs) (ct : Time) :
    (upsert_lifecycle_event db a ct).1.lifecycle_events.length
      = db.lifecycle_events.length + 1 := by
  unfold upsert_lifecycle_event
  cases h : db.lifecycles.find? (fun L => L.email == normalize_email a.email) <;> simp [h]

theorem find?_occupy (l : List Team) (tid : Nat) (team : Team)
    (hteam : l.find? (fun t => t.id == tid) = some team) :
    (l.map (fun t => if t.id == tid then occupy_seat t else t)).find?
      (fun t => t.id == tid) = some (occupy_seat team) := by
  have hq : ∀ s : Team, ((if s.id == tid then occupy_seat s else s).id == tid)
      = (s.id == tid) := by
    intro s
    by_cases hs : (s.id == tid) = true <;> simp [hs, occupy_seat]
  rw [find?_map_pres (fun s => s.id == tid) _ hq l, hteam]
  have htidb : (team.id == tid) = true :=
    @List.find?_some _ (fun s => s.id == tid) team l hteam
  simp only [Option.map_some']
  rw [if_pos htidb]

/-- C5.  Within one saga attempt, a `RedemptionRecord` is appended only on
the branch where the remote invite returned success (never on a failed or
exceptional invite or any earlier failure), and whenever a record is appended
exactly one lifecycle event is appended in the same (atomic) finalize step:
either both tables grow by one together, or neither changes. -/
theorem record_creation_only_on_success (db : DB) (O : SagaOracles) (email code : String)
    (attempt : Nat) (target : Option Nat) :
    ((redeem_body db O email code attempt target).2.records = db.records ∧
     (redeem_body db O email code attempt target).2.lifecycle_events = db.lifecycle_events) ∨
    (∃ tid, O.invite attempt tid = .success ∧
      (redeem_body db O email code attempt target).2.records.length = db.records.length + 1 ∧
      (redeem_body db O email code attempt target).2.lifecycle_events.length
        = db.lifecycle_events.length + 1) := by
  cases hres : reserve_phase db O email code attempt target with
  | ret r => exact Or.inl ⟨by simp [redeem_body, hres], by simp [redeem_body, hres]⟩
  | cont => exact Or.inl ⟨by simp [redeem_body, hres], by simp [redeem_body, hres]⟩
  | reserved tid acc isW db1 =>
    obtain ⟨rc, team, hfind, hteam, hlt, hact, _, _, _, _, hdb1⟩ :=
      reserve_phase_reserved_inv db O email code attempt target tid acc isW db1 hres
    have hrec1 : db1.records = db.records := by rw [hdb1]
    have hev1 : db1.lifecycle_events = db.lifecycle_events := by rw [hdb1]
    have hfind2 : db1.teams.find? (fun t => t.id == tid) = some (occupy_seat team) := by
      rw [hdb1]
      exact find?_occupy db.teams tid team hteam
    cases htokv : O.token_ok attempt tid with
    | false =>
        refine Or.inl ⟨?_, ?_⟩ <;>
          · simp only [redeem_body, hres, hfind2, htokv, reduceIte]
            repeat' split
            all_goals simp_all [rollback_records, rollback_events, hrec1, hev1]
    | true =>
      cases hinv : O.invite attempt tid with
      | success =>
          refine Or.inr ⟨tid, hinv, ?_, ?_⟩ <;>
            · simp only [redeem_body, hres, hfind2, htokv, hinv, reduceIte]
              repeat' split
              all_goals simp_all [upsert_records, upsert_events_length, hrec1, hev1]
      | failure emsg =>
          refine Or.inl ⟨?_, ?_⟩ <;>
            · simp only [redeem_body, hres, hfind2, htokv, hinv, reduceIte]
              repeat' split
              all_goals simp_all [rollback_records, rollback_events, hrec1, hev1]
      | exceptional =>
          refine Or.inl ⟨?_, ?_⟩ <;>
            · simp only [redeem_body, hres, hfind2, htokv, hinv, reduceIte]
              repeat' split
              all_goals simp_all [rollback_records, rollback_events, hrec1, hev1]

/-- Whether a loop-body outcome is the success return of the finalize phase. -/
def body_success : BodyOut → Bool
  | .ret r => r.success
  | .cont _ => false

/-- Every early return of the reservation phase is a failure result. -/
theorem reserve_phase_ret_failure
    (db : DB) (O : SagaOracles) (email code : String) (attempt : Nat) (target : Option Nat)
    (r : RedeemResult)
    (h : reserve_phase db O email code attempt target = .ret r) : r.success = false := by
  simp only [reserve_phase] at h
  repeat
    first
    | exact Phase1Out.noConfusion h
    | (injection h with h1; exact (congrArg RedeemResult.success h1).symm)
    | split at h

/-- C6.  `warranty_expires_at` is assigned (reservation time plus
`warranty_days or 30`) exactly when a warranty code is redeemed from the
`unused` state; a successful reuse from any other state leaves
`warranty_expires_at` unchanged while still appending a new allocation
record, and a non-warranty code's `warranty_expires_at` is never touched by a
successful attempt. -/
theorem warranty_expiry_set_only_on_first_use
    (db : DB) (O : SagaOracles) (email code : String) (attempt : Nat) (target : Option Nat)
    (rc rcf : RedemptionCode)
    (hfind : db.codes.find? (fun c => c.code == code) = some rc)
    (hsucc : body_success (redeem_body db O email code attempt target).1 = true)
    (hfindf : (redeem_body db O email code attempt target).2.codes.find?
        (fun c => c.code == code) = some rcf) :
    (rc.has_warranty = true → rc.status = "unused" →
      rcf.warranty_expires_at
        = some (O.t_reserve attempt + timedelta_days (warranty_days_or_30 rc.warranty_days))) ∧
    (rc.has_warranty = true → rc.status ≠ "unused" →
      rcf.warranty_expires_at = rc.warranty_expires_at ∧
      (redeem_body db O email code attempt target).2.records.length
        = db.records.length + 1) ∧
    (rc.has_warranty = false → rcf.warranty_expires_at = rc.warranty_expires_at) := by
  cases hres : reserve_phase db O email code attempt target with
  | ret r =>
      exfalso
      have hb : (redeem_body db O email code attempt target).1 = .ret r := by
        simp [redeem_body, hres]
      rw [hb] at hsucc
      simp only [body_success] at hsucc
      rw [reserve_phase_ret_failure db O email code attempt target r hres] at hsucc
      exact Bool.noConfusion hsucc
  | cont =>
      exfalso
      have hb : (redeem_body db O email code attempt target).1 = .cont target := by
        simp [redeem_body, hres]
      rw [hb] at hsucc
      simp [body_success] at hsucc
  | reserved tid acc isW db1 =>
    obtain ⟨rc0, team, hfind0, hteam, hlt, hact, _, _, _, _, hdb1⟩ :=
      reserve_phase_reserved_inv db O email code attempt target tid acc isW db1 hres
    have hrc0 : rc0 = rc := by
      rw [hfind0] at hfind
      exact (Option.some.injEq _ _).mp hfind
    subst hrc0
    have hrec1 : db1.records = db.records := by rw [hdb1]
    have hcodes1 : db1.codes = db.codes.map (fun c =>
        if c.code == code then reserve_mutation rc0 email tid (O.t_reserve attempt) else c) := by
      rw [hdb1]
    have hfind2 : db1.teams.find? (fun t => t.id == tid) = some (occupy_seat team) := by
      rw [hdb1]
      exact find?_occupy db.teams tid team hteam
    cases htokv : O.token_ok attempt tid with
    | false =>
        exfalso
        have hsucc' := hsucc
        simp only [redeem_body, hres, hfind2, htokv, reduceIte] at hsucc'
        repeat' split at hsucc'
        all_goals simp_all [body_success]
    | true =>
      cases hinv : O.invite attempt tid with
      | failure emsg =>
          exfalso
          have hsucc' := hsucc
          simp only [redeem_body, hres, hfind2, htokv, hinv, reduceIte] at hsucc'
          repeat' split at hsucc'
          all_goals simp_all [body_success]
      | exceptional =>
          exfalso
          have hsucc' := hsucc
          simp only [redeem_body, hres, hfind2, htokv, hinv, reduceIte] at hsucc'
          repeat' split at hsucc'
          all_goals simp_all [body_success]
      | success =>
          have hcodes : (redeem_body db O email code attempt target).2.codes = db1.codes := by
            simp only [redeem_body, hres, hfind2, htokv, hinv, reduceIte]
            simp [upsert_codes]
          have hreclen : (redeem_body db O email code attempt target).2.records.length
              = db.records.length + 1 := by
            simp only [redeem_body, hres, hfind2, htokv, hinv, reduceIte]
            simp [upsert_records, hrec1]
          have hpm : ((reserve_mutation rc0 email tid (O.t_reserve attempt)).code == code)
              = true :=
            @List.find?_some _ (fun c => c.code == code) rc0 db.codes hfind0
          rw [hcodes, hcodes1] at hfindf
          rw [find?_replace (fun c => c.code == code)
            (reserve_mutation rc0 email tid (O.t_reserve attempt)) hpm db.codes,
            hfind0] at hfindf
          simp only [Option.map_some', Option.some.injEq] at hfindf
          refine ⟨?_, ?_, ?_⟩
          · intro hw hst
            rw [← hfindf]
            simp [reserve_mutation, hw, hst]
          · intro hw hst
            refine ⟨?_, hreclen⟩
            rw [← hfindf]
            have hstb : ¬ ((rc0.status == "unused") = true) := fun hb => hst (by simpa using hb)
            simp [reserve_mutation, hstb]
          · intro hw
            rw [← hfindf]
            simp [reserve_mutation, hw]

/-- C6 witness scenario: a warranty code already held by `a@x` (one
allocation record) is successfully reused by `b@x`. -/
def w6rc : RedemptionCode :=
  { code := "C", status := "warranty_active", has_warranty := true, warranty_days := some 30,
    warranty_expires_at := some 5000000, used_by_email := some "a@x",
    used_team_id := some 1, used_at := some 3000 }

def w6Db : DB :=
  { codes := [w6rc],
    teams := [{ id := 1, account_id := "acc1", team_name := "t1", expires_at := some 100,
                current_members := 1, max_members := 6, status := "active" }],
    records := [{ email := "a@x", code := "C", team_id := 1, account_id := "acc1",
                  redeemed_at := 3000, is_warranty_redemption := true }],
    lifecycles := [], lifecycle_events := [], reminders := [], next_lifecycle_id := 1 }

def w6O : SagaOracles :=
  { validate := fun _ => .valid,
    warranty_reuse := fun _ => true,
    token_ok := fun _ _ => true,
    invite := fun _ _ => .success,
    classify := fun _ t => t,
    t_reserve := fun _ => 4000,
    t_finalize := fun _ => 4100 }

def w6rcf : RedemptionCode :=
  { code := "C", status := "warranty_active", has_warranty := true, warranty_days := some 30,
    warranty_expires_at := some 5000000, used_by_email := some "b@x",
    used_team_id := some 1, used_at := some 4000 }

theorem warranty_expiry_set_only_on_first_use_witness :
    w6rcf.warranty_expires_at = w6rc.warranty_expires_at ∧
    (redeem_body w6Db w6O "b@x" "C" 0 (some 1)).2.records.length
      = w6Db.records.length + 1 :=
  (warranty_expiry_set_only_on_first_use w6Db w6O "b@x" "C" 0 (some 1) w6rc w6rcf
    (by decide) (by decide) (by decide)).2.1 rfl (by decide)

/-! ## Reminder scheduler lemmas (C7, C9) -/

theorem collect_go_queue_mono (now : Time) :
    ∀ (ls : List MemberLifecycle) (q : List MemberReminderQueue) (c s : Nat) (k : DedupeKey),
      has_key k q = true → has_key k (collect_go now ls q c s).2.2 = true := by
  intro ls
  induction ls with
  | nil =>
      intro q c s k h
      simpa [collect_go] using h
  | cons L rest ih =>
      intro q c s k h
      simp only [collect_go]
      split
      · exact ih q c (s + 1) k h
      · split
        · exact ih q c (s + 1) k h
        · apply ih
          simp only [has_key, List.any_append] at h ⊢
          simp [h]

theorem collect_go_covers (now : Time) :
    ∀ (ls : List MemberLifecycle) (q : List MemberReminderQueue) (c s : Nat)
      (L : MemberLifecycle), L ∈ ls →
      (L.policy_type == "redeem_no_warranty_28d" && L.has_migration_downtime) = false →
      has_key (key_of L) (collect_go now ls q c s).2.2 = true := by
  intro ls
  induction ls with
  | nil =>
      intro q c s L hL
      exact absurd hL (List.not_mem_nil L)
  | cons L0 rest ih =>
      intro q c s L hL hdt
      rcases List.mem_cons.mp hL with hEq | hMem
      · subst hEq
        simp only [collect_go]
        split
        · rename_i hcond
          rw [hdt] at hcond
          exact Bool.noConfusion hcond
        · split
          · rename_i hhas
            exact collect_go_queue_mono now rest q c (s + 1) (key_of L) hhas
          · apply collect_go_queue_mono
            simp [has_key, List.any_append, key_of]
      · simp only [collect_go]
        split
        · exact ih _ _ _ L hMem hdt
        · split
          · exact ih _ _ _ L hMem hdt
          · exact ih _ _ _ L hMem hdt

theorem collect_go_no_new (now : Time) :
    ∀ (ls : List MemberLifecycle) (q : List MemberReminderQueue) (c s : Nat),
      (∀ L ∈ ls, (L.policy_type == "redeem_no_warranty_28d" && L.has_migration_downtime) = true ∨
        has_key (key_of L) q = true) →
      (collect_go now ls q c s).1 = c := by
  intro ls
  induction ls with
  | nil => intro q c s _; rfl
  | cons L0 rest ih =>
      intro q c s hall
      simp only [collect_go]
      split
      · exact ih q c (s + 1) (fun L hL => hall L (List.mem_cons_of_mem L0 hL))
      · rename_i hcond
        rcases hall L0 (List.mem_cons_self L0 rest) with hdt | hkey
        · exact absurd hdt (by simpa using hcond)
        · rw [if_pos (show has_key
              { email := L0.email, expiry_day := (L0.policy_expires_at.getD 0).fdiv 86400,
                reason := reason_for L0.policy_type } q = true from hkey)]
          exact ih q c (s + 1) (fun L hL => hall L (List.mem_cons_of_mem L0 hL))

/-- C7.  Running `collect_due_reminders` twice in a row (same clock reading,
no intervening change to any lifecycle row) yields `created = 0` on the
second run: every lifecycle that produced a reminder on the first run
computes the same dedupe key (email + expiry date + reason) and is counted as
skipped. -/
theorem collect_due_reminders_idempotent (db : DB) (now : Time) (due_days : Int) :
    (collect_due_reminders (collect_due_reminders db now due_days).db now due_days).created
      = 0 := by
  show (collect_go now (db.lifecycles.filter (due_filter now due_days))
      (collect_go now (db.lifecycles.filter (due_filter now due_days)) db.reminders 0 0).2.2
      0 0).1 = 0
  apply collect_go_no_new
  intro L hL
  by_cases hdt : (L.policy_type == "redeem_no_warranty_28d" && L.has_migration_downtime) = true
  · exact Or.inl hdt
  · refine Or.inr ?_
    have hdt' : (L.policy_type == "redeem_no_warranty_28d" && L.has_migration_downtime)
        = false := by
      revert hdt
      cases (L.policy_type == "redeem_no_warranty_28d" && L.has_migration_downtime) <;> simp
    have := collect_go_covers now (db.lifecycles.filter (due_filter now due_days))
      db.reminders 0 0 L hL hdt'
    simpa [key_of] using this

theorem collect_go_new_from (now : Time) :
    ∀ (ls : List MemberLifecycle) (q : List MemberReminderQueue) (c s : Nat)
      (r : MemberReminderQueue), r ∈ (collect_go now ls q c s).2.2 →
      r ∈ q ∨ ∃ L, L ∈ ls ∧
        ¬(L.policy_type = "redeem_no_warranty_28d" ∧ L.has_migration_downtime = true) ∧
        r.lifecycle_id = L.id ∧ r.email = L.email := by
  intro ls
  induction ls with
  | nil =>
      intro q c s r hr
      exact Or.inl (by simpa [collect_go] using hr)
  | cons L0 rest ih =>
      intro q c s r hr
      simp only [collect_go] at hr
      rcases hsplit : (L0.policy_type == "redeem_no_warranty_28d" && L0.has_migration_downtime)
      case true =>
        rw [if_pos hsplit] at hr
        rcases ih q c (s + 1) r hr with h | ⟨L, hL, h2⟩
        · exact Or.inl h
        · exact Or.inr ⟨L, List.mem_cons_of_mem L0 hL, h2⟩
      case false =>
        rw [if_neg (by simp [hsplit])] at hr
        by_cases hhas : has_key
            { email := L0.email, expiry_day := (L0.policy_expires_at.getD 0).fdiv 86400,
              reason := reason_for L0.policy_type } q = true
        · rw [if_pos hhas] at hr
          rcases ih q c (s + 1) r hr with h | ⟨L, hL, h2⟩
          · exact Or.inl h
          · exact Or.inr ⟨L, List.mem_cons_of_mem L0 hL, h2⟩
        · rw [if_neg hhas] at hr
          rcases ih _ _ _ r hr with h | ⟨L, hL, h2⟩
          · rcases List.mem_append.mp h with h1 | h2
            · exact Or.inl h1
            · refine Or.inr ⟨L0, List.mem_cons_self L0 rest, ?_, ?_, ?_⟩
              · intro hc
                have : (L0.policy_type == "redeem_no_warranty_28d"
                    && L0.has_migration_downtime) = true := by
                  simp [hc.1, hc.2]
                rw [hsplit] at this
                exact Bool.noConfusion this
              · rw [List.mem_singleton.mp h2]
              · rw [List.mem_singleton.mp h2]
          · exact Or.inr ⟨L, List.mem_cons_of_mem L0 hL, h2⟩

theorem collect_go_skip_count (now : Time) :
    ∀ (ls : List MemberLifecycle) (q : List MemberReminderQueue) (c s : Nat),
      s + (ls.filter (fun L => L.policy_type == "redeem_no_warranty_28d"
        && L.has_migration_downtime)).length ≤ (collect_go now ls q c s).2.1 := by
  intro ls
  induction ls with
  | nil =>
      intro q c s
      simp [collect_go]
  | cons L0 rest ih =>
      intro q c s
      simp only [collect_go, List.filter_cons]
      by_cases hsplit : (L0.policy_type == "redeem_no_warranty_28d"
          && L0.has_migration_downtime) = true
      · rw [if_pos hsplit, if_pos hsplit]
        have h := ih q c (s + 1)
        simp only [List.length_cons]
        omega
      · rw [if_neg hsplit, if_neg hsplit]
        by_cases hhas : has_key
            { email := L0.email, expiry_day := (L0.policy_expires_at.getD 0).fdiv 86400,
              reason := reason_for L0.policy_type } q = true
        · rw [if_pos hhas]
          have h := ih q c (s + 1)
          omega
        · rw [if_neg hhas]
          exact ih _ (c + 1) s

/-- C9.  `collect_due_reminders` never creates a pending reminder for a
lifecycle on the `redeem_no_warranty_28d` policy with the migration-downtime
flag set: every reminder in the output queue is either pre-existing or
produced by a lifecycle that is not under that grace rule, and every
qualifying downtime lifecycle is counted in `skipped`. -/
theorem downtime_grace_skips (db : DB) (now : Time) (due_days : Int) :
    (∀ r, r ∈ (collect_due_reminders db now due_days).db.reminders →
      r ∈ db.reminders ∨ ∃ L, L ∈ db.lifecycles ∧
        ¬(L.policy_type = "redeem_no_warranty_28d" ∧ L.has_migration_downtime = true) ∧
        r.lifecycle_id = L.id ∧ r.email = L.email) ∧
    ((db.lifecycles.filter (due_filter now due_days)).filter
        (fun L => L.policy_type == "redeem_no_warranty_28d"
          && L.has_migration_downtime)).length
      ≤ (collect_due_reminders db now due_days).skipped := by
  constructor
  · intro r hr
    have hr' : r ∈ (collect_go now (db.lifecycles.filter (due_filter now due_days))
        db.reminders 0 0).2.2 := hr
    rcases collect_go_new_from now _ _ _ _ r hr' with h | ⟨L, hL, h2⟩
    · exact Or.inl h
    · exact Or.inr ⟨L, (List.mem_filter.mp hL).1, h2⟩
  · have h := collect_go_skip_count now (db.lifecycles.filter (due_filter now due_days))
      db.reminders 0 0
    simpa using h

/-- C9 witness scenario: two qualifying lifecycles, one under the downtime
grace rule (skipped) and one not (its reminder is created). -/
def w9L1 : MemberLifecycle :=
  { id := 1, email := "m@x", first_joined_at := POLICY_EFFECTIVE_FROM,
    policy_type := "redeem_no_warranty_28d",
    policy_expires_at := some (POLICY_EFFECTIVE_FROM + 86400),
    has_migration_downtime := true, is_legacy_seeded := false,
    effective_from := POLICY_EFFECTIVE_FROM, current_team_id := some 1, status := "active" }

def w9L2 : MemberLifecycle :=
  { id := 2, email := "n@x", first_joined_at := POLICY_EFFECTIVE_FROM,
    policy_type := "redeem_no_warranty_28d",
    policy_expires_at := some (POLICY_EFFECTIVE_FROM + 86400),
    has_migration_downtime := false, is_legacy_seeded := false,
    effective_from := POLICY_EFFECTIVE_FROM, current_team_id := some 1, status := "active" }

def w9Db : DB :=
  { codes := [], teams := [], records := [], lifecycles := [w9L1, w9L2],
    lifecycle_events := [], reminders := [], next_lifecycle_id := 3 }

def w9row : MemberReminderQueue :=
  { lifecycle_id := 2, email := "n@x", policy_type := "redeem_no_warranty_28d",
    target_expires_at := POLICY_EFFECTIVE_FROM + 86400, days_left := 1,
    reason := "redeem_no_warranty_due", status := "pending",
    dedupe_key := { email := "n@x", expiry_day := 20514, reason := "redeem_no_warranty_due" } }

theorem downtime_grace_skips_witness :
    (w9row ∈ w9Db.reminders ∨ ∃ L, L ∈ w9Db.lifecycles ∧
      ¬(L.policy_type = "redeem_no_warranty_28d" ∧ L.has_migration_downtime = true) ∧
      w9row.lifecycle_id = L.id ∧ w9row.email = L.email) ∧
    ((w9Db.lifecycles.filter (due_filter POLICY_EFFECTIVE_FROM 3)).filter
        (fun L => L.policy_type == "redeem_no_warranty_28d"
          && L.has_migration_downtime)).length
      ≤ (collect_due_reminders w9Db POLICY_EFFECTIVE_FROM 3).skipped :=
  ⟨(downtime_grace_skips w9Db POLICY_EFFECTIVE_FROM 3).1 w9row (by decide),
   (downtime_grace_skips w9Db POLICY_EFFECTIVE_FROM 3).2⟩

/-! ## Lifecycle upsert lemmas (C8, C10) -/

theorem apply_update_proj (L0 : MemberLifecycle) (a : UpsertArgs) (now : Time) :
    (apply_lifecycle_update L0 a now).1.email = L0.email ∧
    (apply_lifecycle_update L0 a now).1.id = L0.id ∧
    (apply_lifecycle_update L0 a now).1.first_joined_at = L0.first_joined_at := by
  refine ⟨?_, ?_, ?_⟩ <;>
    · unfold apply_lifecycle_update
      dsimp only
      split
      · rfl
      · split
        · rfl
        · split <;> rfl

/-- The policy-recomputation precedence of claim C8, written from the spec's
words (§4.4): legacy-seed with explicit remaining days, then warranty with
the supplied expiry, then redeem without warranty (28 days from the original
first join), then manual (28 days from the original first join).  To be
compared with the embedded `apply_lifecycle_update`. -/
def spec_policy (a : UpsertArgs) (now first_joined : Time) : String × Option Time :=
  match a.is_legacy_seeded, a.legacy_remaining_warranty_days with
  | true, some d => ("warranty", some (now + timedelta_days d))
  | _, _ =>
    if a.has_warranty then ("warranty", a.warranty_expires_at)
    else if a.source_type = "redeem" then
      ("redeem_no_warranty_28d", some (first_joined + timedelta_days 28))
    else ("manual_28d", some (first_joined + timedelta_days 28))

theorem apply_update_policy (L0 : MemberLifecycle) (a : UpsertArgs) (now : Time) :
    ((apply_lifecycle_update L0 a now).1.policy_type,
     (apply_lifecycle_update L0 a now).1.policy_expires_at)
      = spec_policy a now L0.first_joined_at := by
  cases hleg : a.is_legacy_seeded <;> cases hd : a.legacy_remaining_warranty_days <;>
    by_cases hw : a.has_warranty = true <;> by_cases hsrc : a.source_type = "redeem" <;>
      simp [apply_lifecycle_update, spec_policy, hleg, hd, hw, hsrc]

theorem upsert_found (db : DB) (a : UpsertArgs) (ct : Time) (L0 : MemberLifecycle)
    (h : db.lifecycles.find? (fun L => L.email == normalize_email a.email) = some L0) :
    (upsert_lifecycle_event db a ct).1.lifecycles.find?
        (fun L => L.email == normalize_email a.email)
      = some (apply_lifecycle_update L0 a (a.event_time.getD ct)).1 ∧
    (upsert_lifecycle_event db a ct).1.lifecycles.length = db.lifecycles.length := by
  have hmail2 : ((apply_lifecycle_update L0 a (a.event_time.getD ct)).1.email
      == normalize_email a.email) = true := by
    rw [(apply_update_proj L0 a (a.event_time.getD ct)).1]
    exact @List.find?_some _ (fun L => L.email == normalize_email a.email) L0 db.lifecycles h
  unfold upsert_lifecycle_event
  simp only [h]
  constructor
  · rw [find?_replace (fun L => L.email == normalize_email a.email)
      (apply_lifecycle_update L0 a (a.event_time.getD ct)).1 hmail2 db.lifecycles, h]
    rfl
  · simp

theorem upsert_new (db : DB) (a : UpsertArgs) (ct : Time)
    (h : db.lifecycles.find? (fun L => L.email == normalize_email a.email) = none) :
    (upsert_lifecycle_event db a ct).1.lifecycles
      = db.lifecycles
        ++ [(apply_lifecycle_update (fresh_lifecycle db a (a.event_time.getD ct)) a
              (a.event_time.getD ct)).1] := by
  unfold upsert_lifecycle_event
  simp only [h]

theorem find?_append_none {α : Type} (p : α → Bool) :
    ∀ (l1 l2 : List α), l1.find? p = none → (l1 ++ l2).find? p = l2.find? p
  | [], _, _ => rfl
  | a :: l1, l2, h => by
    have hpa : ¬ p a = true := by
      intro hp
      rw [List.find?_cons_of_pos _ hp] at h
      exact Option.noConfusion h
    rw [List.find?_cons_of_neg _ hpa] at h
    rw [List.cons_append, List.find?_cons_of_neg _ hpa]
    exact find?_append_none p l1 l2 h

/-- C8.  On every call on an already-known email, `upsert_lifecycle_event`
recomputes the lifecycle's policy type and expiry by the fixed precedence of
`spec_policy` — legacy-seed with explicit remaining days beats warranty beats
redeem-without-warranty beats manual — with the 28-day policies anchored at
the original `first_joined_at`, which the update never changes (not at this
event's time). -/
theorem upsert_policy_precedence (db : DB) (a : UpsertArgs) (ct : Time)
    (L0 : MemberLifecycle)
    (h : db.lifecycles.find? (fun L => L.email == normalize_email a.email) = some L0) :
    ∃ L1, (upsert_lifecycle_event db a ct).1.lifecycles.find?
        (fun L => L.email == normalize_email a.email) = some L1 ∧
      L1.first_joined_at = L0.first_joined_at ∧
      (L1.policy_type, L1.policy_expires_at)
        = spec_policy a (a.event_time.getD ct) L1.first_joined_at := by
  refine ⟨(apply_lifecycle_update L0 a (a.event_time.getD ct)).1,
    (upsert_found db a ct L0 h).1,
    (apply_update_proj L0 a (a.event_time.getD ct)).2.2, ?_⟩
  rw [(apply_update_proj L0 a (a.event_time.getD ct)).2.2]
  exact apply_update_policy L0 a (a.event_time.getD ct)

/-- C8 witness scenario: an existing lifecycle updated by a warranty-less
redeem event. -/
def w8L0 : MemberLifecycle :=
  { id := 7, email := "u@x", first_joined_at := 500,
    policy_type := "manual_28d", policy_expires_at := some (500 + timedelta_days 28),
    has_migration_downtime := false, is_legacy_seeded := false,
    effective_from := POLICY_EFFECTIVE_FROM, current_team_id := some 1, status := "active" }

def w8Db : DB :=
  { codes := [], teams := [], records := [], lifecycles := [w8L0],
    lifecycle_events := [], reminders := [], next_lifecycle_id := 8 }

def w8Args : UpsertArgs :=
  { email := "u@x", team_id := 1, source_type := "redeem", event_type := "redeem_join",
    code_or_manual_tag := some "C", has_warranty := false, warranty_expires_at := none,
    is_legacy_seeded := false, legacy_remaining_warranty_days := none,
    event_time := some 900 }

theorem upsert_policy_precedence_witness :
    ∃ L1, (upsert_lifecycle_event w8Db w8Args 999).1.lifecycles.find?
        (fun L => L.email == normalize_email w8Args.email) = some L1 ∧
      L1.first_joined_at = w8L0.first_joined_at ∧
      (L1.policy_type, L1.policy_expires_at)
        = spec_policy w8Args (w8Args.event_time.getD 999) L1.first_joined_at :=
  upsert_policy_precedence w8Db w8Args 999 w8L0 (by decide)

/-- C10.  `upsert_lifecycle_event` normalizes the email (strip + lowercase)
before both the lookup and the creation: two calls whose raw emails differ
only by case or surrounding whitespace resolve to one single lifecycle row —
the first call creates it, the second updates it, leaving the table one row
larger than before, not two. -/
theorem email_normalization_single_row (db : DB) (a1 a2 : UpsertArgs) (ct1 ct2 : Time)
    (hsame : normalize_email a1.email = normalize_email a2.email)
    (hnone : db.lifecycles.find? (fun L => L.email == normalize_email a1.email) = none) :
    (upsert_lifecycle_event db a1 ct1).1.lifecycles.length = db.lifecycles.length + 1 ∧
    (upsert_lifecycle_event (upsert_lifecycle_event db a1 ct1).1 a2 ct2).1.lifecycles.length
      = db.lifecycles.length + 1 := by
  have h1 := upsert_new db a1 ct1 hnone
  have hlen1 : (upsert_lifecycle_event db a1 ct1).1.lifecycles.length
      = db.lifecycles.length + 1 := by
    rw [h1]
    simp
  refine ⟨hlen1, ?_⟩
  have hL2email : ((apply_lifecycle_update (fresh_lifecycle db a1 (a1.event_time.getD ct1)) a1
      (a1.event_time.getD ct1)).1.email == normalize_email a2.email) = true := by
    rw [(apply_update_proj _ a1 (a1.event_time.getD ct1)).1]
    show (normalize_email a1.email == normalize_email a2.email) = true
    rw [hsame]
    exact beq_self_eq_true _
  have hfound : (upsert_lifecycle_event db a1 ct1).1.lifecycles.find?
      (fun L => L.email == normalize_email a2.email)
      = some (apply_lifecycle_update (fresh_lifecycle db a1 (a1.event_time.getD ct1)) a1
          (a1.event_time.getD ct1)).1 := by
    rw [h1]
    have hnone2 : db.lifecycles.find? (fun L => L.email == normalize_email a2.email) = none := by
      rw [← hsame]
      exact hnone
    rw [find?_append_none _ db.lifecycles _ hnone2]
    rw [@List.find?_cons_of_pos MemberLifecycle
      (fun L => L.email == normalize_email a2.email) _ [] hL2email]
  rw [(upsert_found (upsert_lifecycle_event db a1 ct1).1 a2 ct2 _ hfound).2]
  exact hlen1

def w10Db : DB :=
  { codes := [], teams := [], records := [], lifecycles := [],
    lifecycle_events := [], reminders := [], next_lifecycle_id := 1 }

def w10a1 : UpsertArgs :=
  { email := " Foo@X.com", team_id := 1, source_type := "manual", event_type := "manual_add",
    code_or_manual_tag := none, has_warranty := false, warranty_expires_at := none,
    is_legacy_seeded := false, legacy_remaining_warranty_days := none, event_time := some 100 }

def w10a2 : UpsertArgs :=
  { w10a1 with email := "foo@x.com  ", event_time := some 200 }

theorem email_normalization_single_row_witness :
    normalize_email " Foo@X.com" = normalize_email "foo@x.com  " ∧
    ((upsert_lifecycle_event w10Db w10a1 100).1.lifecycles.length
        = w10Db.lifecycles.length + 1 ∧
     (upsert_lifecycle_event (upsert_lifecycle_event w10Db w10a1 100).1 w10a2 200).1.lifecycles.length
        = w10Db.lifecycles.length + 1) :=
  ⟨by decide, email_normalization_single_row w10Db w10a1 w10a2 100 200 (by decide) (by decide)⟩

end TeamManage
